import Mathlib

/-!
Shallow embedding of the Antarctica ecosystem simulation:
`src/simulation/animals.py`, `src/simulation/spatial.py`, `src/simulation/world.py`,
`src/simulation/engine.py` and `src/backend/service.py`.

Modelling conventions.

* Python floats are modelled as rationals.  Every draw from the shared RNG
  (`random.uniform`, `random.randint`, `random.random`, `random.shuffle`) is
  supplied by an explicit oracle parameter, so theorems quantify over all values
  the RNG could produce.
* The three animal classes `Penguin`, `Seal`, `Fish` share one record `Animal`;
  which class an object has is determined by which per-species list of the
  `WorldState` holds it, exactly as in the engine.  The per-species constants
  fixed by the Python constructors are baked into `mkPenguin`, `mkSeal`,
  `mkFish`.  The speed constants are omitted: they are read only inside the
  inline behaviour decision procedure, which is abstracted (see below).
* The inline behaviour decision procedure of `SimulationEngine._move_animal`
  (engine.py lines 265-1090) writes only the steering bookkeeping fields
  (behavior_state, target_id, hunt_direction_angle, hunt_direction_ticks,
  flee_cooldown) and produces a displacement that is finally applied through
  `Animal.move`; it is abstracted as an oracle-provided `AIStep`, so every
  theorem quantifies over all decisions the procedure could make.
* The speed selection of `_move_animal` calls `animal.get_speed(not
  is_on_land)` for penguins and seals (engine.py line 278), and no class in
  the staged snapshot defines a `get_speed` method, so the first penguin (or,
  with no penguins, the first seal) processed in a tick raises AttributeError
  right after the state assignment and the tick aborts with the world
  partially mutated; the fish branch reads the existing `land_speed` /
  `water_speed` attributes and completes.  `tickWorldChecked`, `stepChecked`
  and `serviceStepChecked` model the staged source including this abort.  The
  total `tickWorld`, `tickEngine` and `step` model the ticks that complete:
  on worlds holding no penguins and no seals they agree with the staged
  source (`tickWorldChecked_fishOnly`), and on other worlds they describe the
  code below line 278 as it would execute, which the conditional-safety
  theorems quantify over.
* `distance_to` comparisons `sqrt d < t` with `t ≥ 0` are embedded as
  `d < t*t` (squaring is monotone on nonnegatives), keeping arithmetic rational.
* The spatial grid of `spatial.py` stores Python object references; the
  embedding stores the animal id and resolves it through the current entity
  store when queried, which matches reference semantics while ids are distinct.
* `Environment.is_land` and `Environment.tick` (drifting ice floes, seasons)
  are abstracted as a per-tick oracle `isLand : ℚ → ℚ → Bool`; the engine reads
  the terrain only through `is_land`.
-/

/-! ### Kernel-computable rational arithmetic

The Batteries field operations on `ℚ` are irreducible, so a concrete program
run could not be checked by the kernel through them.  The embedding therefore
uses the following clones, built on the reducible `mkRat` and `Rat.divInt`;
they are proved equal to the standard operations (`qAdd_eq` and friends below)
so symbolic reasoning can switch back to the Mathlib operations. -/

/-- Addition on ℚ, kernel-computable. -/
def qAdd (a b : ℚ) : ℚ :=
  mkRat (a.num * b.den + b.num * a.den) (a.den * b.den)

/-- Subtraction on ℚ, kernel-computable. -/
def qSub (a b : ℚ) : ℚ :=
  mkRat (a.num * b.den - b.num * a.den) (a.den * b.den)

/-- Multiplication on ℚ, kernel-computable. -/
def qMul (a b : ℚ) : ℚ :=
  mkRat (a.num * b.num) (a.den * b.den)

/-- Inverse on ℚ, kernel-computable. -/
def qInv (b : ℚ) : ℚ :=
  Rat.divInt (b.den : ℤ) b.num

/-- Division on ℚ, kernel-computable. -/
def qDiv (a b : ℚ) : ℚ :=
  qMul a (qInv b)

/-- The squared Euclidean distance `dx*dx + dy*dy` between two points, the
form every distance comparison of the Python code reduces to. -/
def qDistSq (x1 y1 x2 y2 : ℚ) : ℚ :=
  qAdd (qMul (qSub x1 x2) (qSub x1 x2)) (qMul (qSub y1 y2) (qSub y1 y2))

/-- Base animal record (animals.py, `Animal` dataclass, plus the per-species
fields `state`, `breeding_cooldown`, `max_breeding_cooldown` of `Penguin` and
`Seal`; for `Fish` the `state` attribute is assigned dynamically by
`SimulationEngine._move_animal` and is never read before that assignment). -/
structure Animal where
  id : String
  x : ℚ
  y : ℚ
  energy : ℚ
  age : ℤ
  maxEnergy : ℚ
  maxAge : ℤ
  state : String
  behaviorState : String
  targetId : String
  huntDirectionAngle : ℚ
  huntDirectionTicks : ℤ
  lastX : ℚ
  lastY : ℚ
  huntingCooldown : ℤ
  breedingCooldown : ℤ
  maxBreedingCooldown : ℤ
deriving DecidableEq

/-- Animal.move (animals.py lines 32-60): store the previous position, add the
displacement, snap an out-of-range coordinate to 0 or to world size minus 1,
subtract the movement cost 0.05 from energy (no floor), and report whether a
boundary was hit. -/
def Animal.move (a : Animal) (dx dy : ℚ) (worldWidth worldHeight : ℤ) :
    Animal × Bool :=
  let a0 := { a with lastX := a.x, lastY := a.y }
  let newX := qAdd a0.x dx
  let newY := qAdd a0.y dy
  let px := if newX < 0 then ((0 : ℚ), true)
    else if (worldWidth : ℚ) ≤ newX then (qSub (worldWidth : ℚ) 1, true)
    else (newX, false)
  let py := if newY < 0 then ((0 : ℚ), true)
    else if (worldHeight : ℚ) ≤ newY then (qSub (worldHeight : ℚ) 1, true)
    else (newY, false)
  ({ a0 with x := px.1, y := py.1, energy := qSub a0.energy (mkRat 1 20) },
   px.2 || py.2)

/-- Animal.consume_energy: energy is floored at 0. -/
def Animal.consumeEnergy (a : Animal) (amount : ℚ) : Animal :=
  { a with energy := max 0 (qSub a.energy amount) }

/-- Animal.gain_energy: energy is capped at max_energy. -/
def Animal.gainEnergy (a : Animal) (amount : ℚ) : Animal :=
  { a with energy := min a.maxEnergy (qAdd a.energy amount) }

/-- Animal.is_alive. -/
def Animal.isAlive (a : Animal) : Bool :=
  decide (0 < a.energy) && decide (a.age < a.maxAge)

/-- Squared distance between two animals; `a.distance_to b < t` in the Python
code is embedded as `a.distSq b < t*t`. -/
def Animal.distSq (a b : Animal) : ℚ :=
  qDistSq a.x a.y b.x b.y

/-- Animal.tick: age one tick and pay the basal metabolic rate 0.025. -/
def Animal.tickBase (a : Animal) : Animal :=
  Animal.consumeEnergy { a with age := a.age + 1 } (mkRat 1 40)

/-- Penguin.tick and Seal.tick: base tick, then decrement the breeding and
hunting cooldowns, never below 0. -/
def tickPenguinSeal (a : Animal) : Animal :=
  let a1 := a.tickBase
  let a2 := if 0 < a1.breedingCooldown then
    { a1 with breedingCooldown := a1.breedingCooldown - 1 } else a1
  if 0 < a2.huntingCooldown then
    { a2 with huntingCooldown := a2.huntingCooldown - 1 } else a2

/-- Fish.tick: only the base tick mutates fish state (the random swim in
Fish.tick computes a displacement but, per the source comment, movement is
handled by the engine). -/
def tickFish (a : Animal) : Animal :=
  a.tickBase

/-- Penguin constructor: dataclass defaults plus `Penguin.__post_init__`. -/
def mkPenguin (id : String) (x y energy : ℚ) : Animal :=
  { id := id, x := x, y := y, energy := energy, age := 0,
    maxEnergy := 150, maxAge := 800,
    state := "land", behaviorState := "idle", targetId := "",
    huntDirectionAngle := 0, huntDirectionTicks := 0,
    lastX := 0, lastY := 0, huntingCooldown := 0,
    breedingCooldown := 0, maxBreedingCooldown := 200 }

/-- Seal constructor: dataclass defaults plus `Seal.__post_init__`. -/
def mkSeal (id : String) (x y energy : ℚ) : Animal :=
  { id := id, x := x, y := y, energy := energy, age := 0,
    maxEnergy := 200, maxAge := 1200,
    state := "sea", behaviorState := "idle", targetId := "",
    huntDirectionAngle := 0, huntDirectionTicks := 0,
    lastX := 0, lastY := 0, huntingCooldown := 0,
    breedingCooldown := 0, maxBreedingCooldown := 300 }

/-- Fish constructor: dataclass defaults plus `Fish.__post_init__`.  A Python
Fish has no `state` or breeding-cooldown fields; the engine assigns `state`
each tick before any read, and the cooldown fields are never touched for fish,
so the placeholder values below are never observed. -/
def mkFish (id : String) (x y energy : ℚ) : Animal :=
  { id := id, x := x, y := y, energy := energy, age := 0,
    maxEnergy := 50, maxAge := 500,
    state := "sea", behaviorState := "idle", targetId := "",
    huntDirectionAngle := 0, huntDirectionTicks := 0,
    lastX := 0, lastY := 0, huntingCooldown := 0,
    breedingCooldown := 0, maxBreedingCooldown := 0 }

/-- Penguin.can_breed: zero breeding cooldown, energy above 80, on land. -/
def canBreedPenguin (a : Animal) : Bool :=
  decide (a.breedingCooldown = 0) && decide (80 < a.energy) && decide (a.state = "land")

/-- Seal.can_breed: zero breeding cooldown, energy above 100, on land. -/
def canBreedSeal (a : Animal) : Bool :=
  decide (a.breedingCooldown = 0) && decide (100 < a.energy) && decide (a.state = "land")

/-- WorldState (world.py) restricted to the fields the engine logic reads:
the tick counter, the three per-species collections, and the environment
dimensions (the remaining environment fields are only read through `is_land`,
which is abstracted as an oracle). -/
structure World where
  tick : ℤ
  penguins : List Animal
  seals : List Animal
  fish : List Animal
  width : ℤ
  height : ℤ
deriving DecidableEq

/-- All animals of the world state, in species order. -/
def allAnimals (w : World) : List Animal :=
  w.penguins ++ w.seals ++ w.fish

/-! ### Spatial grid (spatial.py) -/

/-- Truncation toward zero, the semantics of the Python `int()` conversion used
in `SpatialGrid._get_cell`. -/
def ratTrunc (q : ℚ) : ℤ :=
  if q < 0 then ⌈q⌉ else ⌊q⌋

/-- Look up the value list stored under a key in an association list, defaulting
to the empty list (a missing dictionary key in the Python code is always guarded
by a membership test, for which the empty list answers identically). -/
def alistGet {κ : Type} [DecidableEq κ] (l : List (κ × List String)) (k : κ) :
    List String :=
  (Option.map Prod.snd (l.find? (fun e => e.1 = k))).getD []

/-- Store a value list under a key, replacing an existing binding in place or
appending a fresh binding (Python dictionaries keep insertion order). -/
def alistSet {κ : Type} [DecidableEq κ] (l : List (κ × List String)) (k : κ)
    (v : List String) : List (κ × List String) :=
  if l.any (fun e => e.1 = k) then
    l.map (fun e => if e.1 = k then (k, v) else e)
  else l ++ [(k, v)]

/-- Delete a binding from an association list. -/
def alistDel {κ : Type} [DecidableEq κ] (l : List (κ × List String)) (k : κ) :
    List (κ × List String) :=
  l.filter (fun e => ¬ e.1 = k)

/-- The cell association lists of the reverse index `_animal_cells`
(id to set of cells); Python uses a set of cells, modelled as a list without
duplicate insertions. -/
def cellsGet (l : List (String × List (ℤ × ℤ))) (k : String) : List (ℤ × ℤ) :=
  (Option.map Prod.snd (l.find? (fun e => e.1 = k))).getD []

/-- Store the cell set of one animal id. -/
def cellsSet (l : List (String × List (ℤ × ℤ))) (k : String)
    (v : List (ℤ × ℤ)) : List (String × List (ℤ × ℤ)) :=
  if l.any (fun e => e.1 = k) then
    l.map (fun e => if e.1 = k then (k, v) else e)
  else l ++ [(k, v)]

/-- SpatialGrid (spatial.py lines 13-277).  The grid maps a cell to the animals
stored in it; the Python lists hold object references, modelled here by the
animal id, to be resolved through the entity store at query time. -/
structure SpatialGrid where
  cellSize : ℚ
  width : ℤ
  height : ℤ
  cols : ℤ
  rows : ℤ
  grid : List ((ℤ × ℤ) × List String)
  animalCells : List (String × List (ℤ × ℤ))
deriving DecidableEq

/-- SpatialGrid.__init__. -/
def SpatialGrid.create (width height : ℤ) (cellSize : ℚ) : SpatialGrid :=
  { cellSize := cellSize, width := width, height := height,
    cols := ⌈qDiv (width : ℚ) cellSize⌉, rows := ⌈qDiv (height : ℚ) cellSize⌉,
    grid := [], animalCells := [] }

/-- SpatialGrid._get_cell: truncate the scaled coordinates and clamp into the
valid cell range. -/
def SpatialGrid.getCell (g : SpatialGrid) (x y : ℚ) : ℤ × ℤ :=
  let col := ratTrunc (qDiv x g.cellSize)
  let row := ratTrunc (qDiv y g.cellSize)
  (max 0 (min col (g.cols - 1)), max 0 (min row (g.rows - 1)))

/-- SpatialGrid.add: append the animal to the cell of its current position and
record the cell in the reverse index. -/
def SpatialGrid.add (g : SpatialGrid) (id : String) (x y : ℚ) : SpatialGrid :=
  let cell := g.getCell x y
  let cur := alistGet g.grid cell
  let grid := alistSet g.grid cell (if cur.contains id then cur else cur ++ [id])
  let cs := cellsGet g.animalCells id
  let ac := cellsSet g.animalCells id (if cs.contains cell then cs else cs ++ [cell])
  { g with grid := grid, animalCells := ac }

/-- SpatialGrid.remove: clear the animal from every cell recorded in the
reverse index, dropping cells that become empty, then delete the reverse
entry. -/
def SpatialGrid.remove (g : SpatialGrid) (id : String) : SpatialGrid :=
  match g.animalCells.find? (fun e => e.1 = id) with
  | none => g
  | some entry =>
    let grid := entry.2.foldl (fun gr cell =>
      let cur := alistGet gr cell
      if cur.contains id then
        let nw := cur.erase id
        if nw.isEmpty then alistDel gr cell else alistSet gr cell nw
      else gr) g.grid
    { g with grid := grid,
             animalCells := g.animalCells.filter (fun e => ¬ e.1 = id) }

/-- Inclusive integer range. -/
def intRangeIncl (a b : ℤ) : List ℤ :=
  (List.range (b - a + 1).toNat).map (fun k => a + (k : ℤ))

/-- SpatialGrid.get_nearby_cells: all in-bounds cells within
`ceil(radius / cellSize) + 1` cells of the center cell. -/
def SpatialGrid.getNearbyCells (g : SpatialGrid) (x y radius : ℚ) :
    List (ℤ × ℤ) :=
  let c := g.getCell x y
  let cr : ℤ := ⌈qDiv radius g.cellSize⌉ + 1
  (intRangeIncl (-cr) cr).flatMap (fun dc =>
    (intRangeIncl (-cr) cr).filterMap (fun dr =>
      let col := c.1 + dc
      let row := c.2 + dr
      if 0 ≤ col ∧ col < g.cols ∧ 0 ≤ row ∧ row < g.rows then some (col, row)
      else none))

/-- Collect the candidate animals of `get_nearby_animals`: walk the nearby
cells, dedup by id, resolve the stored reference through the entity store, and
apply the exclusion filter (the Python `filter_func` argument defaults to
`None` and is not used by the queries this development reasons about). -/
def gatherCandidates (store : List Animal) (exclude : Option Animal)
    (g : SpatialGrid) (cells : List (ℤ × ℤ)) : List String × List Animal :=
  cells.foldl (fun st cell =>
    (alistGet g.grid cell).foldl (fun st2 id =>
      if st2.1.contains id then st2
      else
        let seen := st2.1 ++ [id]
        match store.find? (fun a => a.id = id) with
        | some a =>
          match exclude with
          | some e => if a = e then (seen, st2.2) else (seen, st2.2 ++ [a])
          | none => (seen, st2.2 ++ [a])
        | none => (seen, st2.2)) st) ([], [])

/-- SpatialGrid.get_nearby_animals: candidates from the nearby cells, then the
exact squared-distance filter against the current positions. -/
def SpatialGrid.getNearbyAnimals (g : SpatialGrid) (store : List Animal)
    (x y radius : ℚ) (exclude : Option Animal) : List Animal :=
  let cands := (gatherCandidates store exclude g (g.getNearbyCells x y radius)).2
  cands.filter (fun a => qDistSq a.x a.y x y ≤ qMul radius radius)

/-- Modelled from the spec: the brute-force O(n) comparison scan the claims
measure the grid against, keeping every stored animal whose Euclidean distance
to the center is at most the radius. -/
def bruteForceRadius (store : List Animal) (x y radius : ℚ) : List Animal :=
  store.filter (fun a => qDistSq a.x a.y x y ≤ qMul radius radius)

/-! ### Predation (engine.py, SimulationEngine._handle_predation) -/

/-- Post-strike update of a successful predator (engine.py lines 1283-1302,
repeated verbatim for the three predator-prey pairs): gain the configured
energy, set the hunting cooldown to HUNTING_COOLDOWN_TICKS = 50, clear the
target when targeting, and drop from a hunting state back to idle. -/
def afterKill (gain : ℚ) (p : Animal) : Animal :=
  let p1 := p.gainEnergy gain
  let p2 := { p1 with huntingCooldown := 50 }
  let p3 := if p2.behaviorState = "targeting" then { p2 with targetId := "" } else p2
  if p3.behaviorState = "searching" ∨ p3.behaviorState = "targeting" then
    { p3 with behaviorState := "idle", huntDirectionTicks := 0 }
  else p3

/-- Result of one predator-prey pass. -/
structure PassResult where
  preds : List Animal
  prey : List Animal
  killed : List Animal
deriving DecidableEq

/-- One predator-prey pass of `_handle_predation`: iterate the predators in
order; a predator passing `canHunt` strikes the first prey in list order that
satisfies `strike`, which is removed (Python `list.remove`: first equal
element); the predator is updated by `afterKill` and its inner loop breaks. -/
def runPred (canHunt : Animal → Bool) (strike : Animal → Animal → Bool)
    (gain : ℚ) : List Animal → List Animal → PassResult
  | [], prey => ⟨[], prey, []⟩
  | s :: rest, prey =>
    if canHunt s then
      match prey.find? (strike s) with
      | some victim =>
        let r := runPred canHunt strike gain rest (prey.erase victim)
        ⟨afterKill gain s :: r.preds, r.prey, victim :: r.killed⟩
      | none =>
        let r := runPred canHunt strike gain rest prey
        ⟨s :: r.preds, r.prey, r.killed⟩
    else
      let r := runPred canHunt strike gain rest prey
      ⟨s :: r.preds, r.prey, r.killed⟩

/-- Strike condition of the seal-penguin pass: live prey in the same medium
within distance 10 (energy gained: SEAL_ENERGY_RECOVERY_FISH * 2 = 40). -/
def sealPenguinStrike (s p : Animal) : Bool :=
  p.isAlive && decide (s.state = p.state) && decide (s.distSq p < 100)

/-- Strike condition of the seal-fish pass: live prey within distance 8; the
medium of the fish is not tested (energy gained: 20). -/
def sealFishStrike (s f : Animal) : Bool :=
  f.isAlive && decide (s.distSq f < 64)

/-- Strike condition of the penguin-fish pass: live prey within distance 5; the
medium of the fish is not tested (energy gained: PENGUIN_ENERGY_RECOVERY_FISH
= 75). -/
def penguinFishStrike (p f : Animal) : Bool :=
  f.isAlive && decide (p.distSq f < 25)

/-- Result of the whole predation phase, with the removal log in program
order. -/
structure PredationResult where
  world : World
  killedPenguins : List Animal
  killedFishBySeals : List Animal
  killedFishByPenguins : List Animal
deriving DecidableEq

/-- SimulationEngine._handle_predation (engine.py lines 1266-1364): seals eat
penguins in the same medium, then seals in the sea eat fish, then penguins in
the sea eat fish.  The second pass sees the seals as updated by the first, and
the third pass sees the penguin list as reduced by the first. -/
def handlePredation (w : World) : PredationResult :=
  let r1 := runPred (fun s => s.isAlive) sealPenguinStrike 40 w.seals w.penguins
  let r2 := runPred (fun s => decide (s.state = "sea") && s.isAlive) sealFishStrike 20
    r1.preds w.fish
  let r3 := runPred (fun p => decide (p.state = "sea") && p.isAlive) penguinFishStrike 75
    r1.prey r2.prey
  ⟨{ w with seals := r2.preds, penguins := r3.preds, fish := r3.prey },
   r1.killed, r2.killed, r3.killed⟩

/-! ### Breeding (engine.py, SimulationEngine._handle_breeding) -/

/-- One breeding event worth of RNG draws: the randint suffix of the offspring
id, the uniform position jitter, and (fish only) the sea position that replaces
an offspring position that fell on land (engine.py lines 1407-1422, a
rejection-sampling search abstracted as its resulting point). -/
structure BreedDraw where
  rid : ℕ
  jx : ℚ
  jy : ℚ
  relocX : ℚ
  relocY : ℚ

/-- Parent update shared by Penguin.breed, Seal.breed and the second parent in
`_handle_breeding`: reset the breeding cooldown to its maximum, then pay the
breeding energy cost. -/
def updBreedParent (cost : ℚ) (a : Animal) : Animal :=
  Animal.consumeEnergy { a with breedingCooldown := a.maxBreedingCooldown } cost

/-- Fish parents only pay the energy cost (Fish.breed sets no cooldown). -/
def updFishParent (a : Animal) : Animal :=
  a.consumeEnergy 10

/-- Penguin.breed offspring: fresh random id, position jittered by uniform
(-5, 5), starting energy 50. -/
def babyPenguin (p : Animal) (d : BreedDraw) : Animal :=
  mkPenguin ("penguin_" ++ toString d.rid) (qAdd p.x d.jx) (qAdd p.y d.jy) 50

/-- Seal.breed offspring: fresh random id, position jittered by uniform
(-5, 5), starting energy 80. -/
def babySeal (p : Animal) (d : BreedDraw) : Animal :=
  mkSeal ("seal_" ++ toString d.rid) (qAdd p.x d.jx) (qAdd p.y d.jy) 80

/-- Fish.breed offspring (jitter uniform (-3, 3), energy 25) combined with the
engine relocation: an offspring that would lie on land is moved to the
oracle-provided sea position. -/
def babyFish (isLand : ℚ → ℚ → Bool) (p : Animal) (d : BreedDraw) : Animal :=
  let b := mkFish ("fish_" ++ toString d.rid) (qAdd p.x d.jx) (qAdd p.y d.jy) 25
  if isLand b.x b.y then { b with x := d.relocX, y := d.relocY } else b

/-- Indices of the animals passing an eligibility test, in list order; the
Python code builds the list of references `[p for p in ... if ...]`, modelled
by indices into the per-species list (list positions play the role of object
identity). -/
def eligibleIdx (elig : Animal → Bool) (l : List Animal) : List ℕ :=
  (List.range l.length).filter (fun i => ((l.get? i).map elig).getD false)

/-- Sequential pairing of the shuffled breeding list:
`for i in range(0, len - 1, 2)` pairs consecutive entries and drops a trailing
unpaired entry. -/
def pairUp : List ℕ → List (ℕ × ℕ)
  | i :: j :: rest => (i, j) :: pairUp rest
  | _ => []

/-- Run the sequential breeding loop over the paired (index) list: a pair
within the distance threshold updates both parents in place and emits one
offspring from the first parent; `k` counts the breeding events to address the
RNG draws. -/
def breedFold (upd : Animal → Animal) (mkBaby : Animal → BreedDraw → Animal)
    (threshSq : ℚ) (draws : ℕ → BreedDraw) :
    List (ℕ × ℕ) → List Animal → ℕ → List Animal × List Animal
  | [], animals, _ => (animals, [])
  | (i, j) :: rest, animals, k =>
    match animals.get? i, animals.get? j with
    | some p1, some p2 =>
      if p1.distSq p2 < threshSq then
        let animals1 := (animals.set i (upd p1)).set j (upd p2)
        let r := breedFold upd mkBaby threshSq draws rest animals1 (k + 1)
        (r.1, mkBaby p1 (draws k) :: r.2)
      else breedFold upd mkBaby threshSq draws rest animals k
    | _, _ => breedFold upd mkBaby threshSq draws rest animals k

/-- Number of fish pairs processed:
`for i in range(0, min(5, len - 1), 2)` (engine.py line 1402). -/
def numFishPairs (len : ℕ) : ℕ :=
  (min 5 (len - 1) + 1) / 2

/-! ### The tick pipeline (engine.py, SimulationEngine) -/

/-- One animal worth of abstracted behaviour decision: the displacement handed
to `Animal.move` and the values of the steering bookkeeping fields after the
inline decision procedure (including its post-move boundary handling) ran.
The procedure never writes position, energy, age or cooldowns directly.  For a
penguin or a seal the staged source never completes this procedure — it raises
AttributeError at its speed selection (engine.py line 278, see
`tickWorldChecked`) — so for those species an `AIStep` describes what the code
below line 278 would decide. -/
structure AIStep where
  dx : ℚ
  dy : ℚ
  behaviorState : String
  targetId : String
  huntAngle : ℚ
  huntTicks : ℤ

/-- The trivial decision: stand still, stay idle. -/
def AIStep.none : AIStep :=
  ⟨0, 0, "idle", "", 0, 0⟩

/-- SimulationEngine._move_animal, physics part (engine.py lines 265-1090),
for an animal whose processing completes: derive the medium from the terrain
at the current position, run the abstracted decision procedure, and apply the
resulting displacement through `Animal.move`.  For a fish this is the staged
code.  For a penguin or a seal the staged code never gets past the state
assignment: line 278 calls `animal.get_speed(not is_on_land)` and neither
class defines `get_speed`, so Python raises AttributeError there —
`tickWorldChecked` models that abort, while this total function describes the
code below line 278 as it would execute, for the conditional-safety theorems
to quantify over. -/
def engineMoveAnimal (isLand : ℚ → ℚ → Bool) (ai : AIStep) (W H : ℤ)
    (a : Animal) : Animal :=
  let a1 := { a with state := if isLand a.x a.y then "land" else "sea" }
  let a2 := { a1 with behaviorState := ai.behaviorState, targetId := ai.targetId,
                      huntDirectionAngle := ai.huntAngle,
                      huntDirectionTicks := ai.huntTicks }
  (a2.move ai.dx ai.dy W H).1

/-- Map a function that also sees the list position over a list. -/
def updateList (f : ℕ → Animal → Animal) : ℕ → List Animal → List Animal
  | _, [] => []
  | i, a :: rest => f i a :: updateList f (i + 1) rest

/-- One tick worth of RNG and behaviour decisions. -/
structure TickOracle where
  isLand : ℚ → ℚ → Bool
  penguinAI : ℕ → AIStep
  sealAI : ℕ → AIStep
  fishAI : ℕ → AIStep
  penguinPerm : List ℕ
  penguinDraws : ℕ → BreedDraw
  sealPerm : List ℕ
  sealDraws : ℕ → BreedDraw
  fishRoll : Bool
  fishPerm : List ℕ
  fishDraws : ℕ → BreedDraw
  spawnRoll : Bool
  spawnRid : ℕ
  spawnX : ℚ
  spawnY : ℚ
  spawnEnergy : ℚ

/-- The documented range of the one RNG draw the invariant proofs depend on:
a spawned fish starts with energy `random.uniform(20, 40)`
(engine.py line 242). -/
def TickOracle.Valid (o : TickOracle) : Prop :=
  20 ≤ o.spawnEnergy ∧ o.spawnEnergy ≤ 40

instance (o : TickOracle) : Decidable o.Valid := by
  unfold TickOracle.Valid
  infer_instance

/-- The oracle that draws nothing interesting: terrain all sea, no movement,
no shuffles, no spawn. -/
def trivOracle : TickOracle :=
  { isLand := fun _ _ => false,
    penguinAI := fun _ => AIStep.none, sealAI := fun _ => AIStep.none,
    fishAI := fun _ => AIStep.none,
    penguinPerm := [], penguinDraws := fun _ => ⟨0, 0, 0, 0, 0⟩,
    sealPerm := [], sealDraws := fun _ => ⟨0, 0, 0, 0, 0⟩,
    fishRoll := false, fishPerm := [], fishDraws := fun _ => ⟨0, 0, 0, 0, 0⟩,
    spawnRoll := false, spawnRid := 100, spawnX := 0, spawnY := 0,
    spawnEnergy := 30 }

/-- SimulationEngine._update_animals in the completed-tick model: every
penguin, seal and fish runs its species tick and then `_move_animal`.  In the
staged snapshot only the fish branch of `_move_animal` is executable: the
first penguin (or, with no penguins, the first seal) raises AttributeError at
engine.py line 278 (`get_speed` is not defined), so an update phase over a
world containing a penguin or a seal never completes — `tickWorldChecked`
models the abort.  This total function is the phase exactly as staged on
worlds where it completes, extended for penguins and seals by the code below
line 278. -/
def updatePhase (o : TickOracle) (w : World) : World :=
  { w with
    penguins := updateList (fun i a =>
      engineMoveAnimal o.isLand (o.penguinAI i) w.width w.height (tickPenguinSeal a)) 0 w.penguins,
    seals := updateList (fun i a =>
      engineMoveAnimal o.isLand (o.sealAI i) w.width w.height (tickPenguinSeal a)) 0 w.seals,
    fish := updateList (fun i a =>
      engineMoveAnimal o.isLand (o.fishAI i) w.width w.height (tickFish a)) 0 w.fish }

/-- SimulationEngine._handle_breeding (engine.py lines 1366-1427): penguins on
land pair within distance 20, seals on land within 25; each successful pair
resets both cooldowns, costs both parents the species energy cost, and
appends one offspring.  Fish breed with probability 0.1 among live fish with
energy above 30, at most `numFishPairs` pairs, within distance 10; a fish
offspring that would start on land is moved to a sea position.  The shuffled
pairing order is the oracle permutation of the eligible indices. -/
def handleBreeding (o : TickOracle) (w : World) : World × List Animal :=
  let eligP := eligibleIdx (fun p => canBreedPenguin p && decide (p.state = "land")) w.penguins
  let rp := if 2 ≤ eligP.length then
      breedFold (updBreedParent 30) babyPenguin 400 o.penguinDraws
        (pairUp o.penguinPerm) w.penguins 0
    else (w.penguins, [])
  let eligS := eligibleIdx (fun s => canBreedSeal s && decide (s.state = "land")) w.seals
  let rs := if 2 ≤ eligS.length then
      breedFold (updBreedParent 50) babySeal 625 o.sealDraws
        (pairUp o.sealPerm) w.seals 0
    else (w.seals, [])
  let eligF := eligibleIdx (fun f => f.isAlive && decide (30 < f.energy)) w.fish
  let rf := if 2 ≤ eligF.length ∧ o.fishRoll then
      breedFold updFishParent (babyFish o.isLand) 100 o.fishDraws
        ((pairUp o.fishPerm).take (numFishPairs eligF.length)) w.fish 0
    else (w.fish, [])
  ({ w with penguins := rp.1 ++ rp.2, seals := rs.1 ++ rs.2,
            fish := rf.1 ++ rf.2 },
   rp.2 ++ rs.2 ++ rf.2)

/-- SimulationEngine._handle_spawning (engine.py lines 231-246): when fewer
than 20 fish remain, with probability 0.1 spawn one fish at a sea position with
energy uniform(20, 40) and an id embedding the tick counter and a randint
(100, 999) suffix. -/
def handleSpawning (o : TickOracle) (w : World) : World × List Animal :=
  if w.fish.length < 20 then
    if o.spawnRoll then
      let f := mkFish ("fish_spawn_" ++ toString w.tick ++ "_" ++ toString o.spawnRid)
        o.spawnX o.spawnY o.spawnEnergy
      ({ w with fish := w.fish ++ [f] }, [f])
    else (w, [])
  else (w, [])

/-- SimulationEngine._remove_dead_animals: filter every species list by
`is_alive`, reporting the removed animals. -/
def removeDeadAnimals (w : World) : World × List Animal :=
  ({ w with penguins := w.penguins.filter (·.isAlive),
            seals := w.seals.filter (·.isAlive),
            fish := w.fish.filter (·.isAlive) },
   w.penguins.filter (fun a => ¬ a.isAlive) ++
   w.seals.filter (fun a => ¬ a.isAlive) ++
   w.fish.filter (fun a => ¬ a.isAlive))

/-- The spatial-grid bookkeeping a tick performs, in program order. -/
structure TickLog where
  killed : List Animal
  born : List Animal
  spawned : List Animal
  died : List Animal

/-- SimulationEngine.tick (engine.py lines 166-200): increment the tick
counter, update the environment (abstracted into the oracle terrain), update
all animals, run predation, breeding and spawning, and remove the dead. -/
def tickWorldLog (o : TickOracle) (w : World) : World × TickLog :=
  let w1 := { w with tick := w.tick + 1 }
  let w2 := updatePhase o w1
  let pr := handlePredation w2
  let rb := handleBreeding o pr.world
  let rs := handleSpawning o rb.1
  let rd := removeDeadAnimals rs.1
  (rd.1, ⟨pr.killedPenguins ++ pr.killedFishBySeals ++ pr.killedFishByPenguins,
          rb.2, rs.2, rd.2⟩)

/-- The world after one tick. -/
def tickWorld (o : TickOracle) (w : World) : World :=
  (tickWorldLog o w).1

/-- The engine: the world state plus the private spatial grid. -/
structure EngineState where
  world : World
  grid : SpatialGrid
deriving DecidableEq

/-- Remove a batch of animals from the grid, in order. -/
def gridRemoveMany (g : SpatialGrid) (ids : List String) : SpatialGrid :=
  ids.foldl SpatialGrid.remove g

/-- Insert a batch of animals into the grid at their current positions. -/
def gridAddMany (g : SpatialGrid) (animals : List Animal) : SpatialGrid :=
  animals.foldl (fun gr a => gr.add a.id a.x a.y) g

/-- One engine tick: the world pipeline of `tickWorldLog` together with the
grid bookkeeping the engine performs — the grid loses animals killed by
predation, gains offspring and spawned fish, and loses the dead.  The movement
phase performs no grid update: `SimulationEngine._move_animal` never calls
`SpatialGrid.update`. -/
def tickEngine (o : TickOracle) (s : EngineState) : EngineState :=
  let r := tickWorldLog o s.world
  let g1 := gridRemoveMany s.grid (r.2.killed.map (·.id))
  let g2 := gridAddMany g1 (r.2.born ++ r.2.spawned)
  let g3 := gridRemoveMany g2 (r.2.died.map (·.id))
  ⟨r.1, g3⟩

/-- SimulationEngine.step(n): run `tick` n times; the oracle stream supplies
each tick its RNG draws and decisions. -/
def step (os : ℕ → TickOracle) : ℕ → EngineState → EngineState
  | 0, s => s
  | n + 1, s => step (fun k => os (k + 1)) n (tickEngine (os 0) s)

/-- SimulationEngine.get_state: the world state reference. -/
def getState (s : EngineState) : World :=
  s.world

/-! ### The staged source's aborting tick

`_update_animals` processes penguins first, then seals, then fish (engine.py
lines 248-263).  For a penguin or seal, `_move_animal` assigns the medium
(lines 271-274) and then evaluates `animal.get_speed(not is_on_land)` (line
278); no class in the snapshot defines `get_speed`, so Python raises
AttributeError out of `tick()`, leaving the world with the tick counter
already incremented (line 172) and the first penguin (or seal) aged by its
species tick with its state assigned — nothing else mutated.  The following
definitions model the staged source including this abort; the error string
paraphrases the Python message without its quote characters. -/

/-- The AttributeError raised at engine.py line 278 for the first penguin. -/
def attrErrPenguin : String :=
  "AttributeError: Penguin object has no attribute get_speed"

/-- The AttributeError raised at engine.py line 278 for the first seal. -/
def attrErrSeal : String :=
  "AttributeError: Seal object has no attribute get_speed"

/-- SimulationEngine.tick as the staged source executes it: the world reached
when the call returns or raises, paired with the raised error if any.  With a
penguin present the tick aborts at the first penguin, with only seals at the
first seal; a world with no penguins and no seals completes the full
pipeline. -/
def tickWorldChecked (o : TickOracle) (w : World) : World × Option String :=
  let w1 : World := { w with tick := w.tick + 1 }
  match w1.penguins with
  | p :: rest =>
    let p1 := tickPenguinSeal p
    let p2 := { p1 with state := if o.isLand p1.x p1.y then "land" else "sea" }
    ({ w1 with penguins := p2 :: rest }, some attrErrPenguin)
  | [] =>
    match w1.seals with
    | s :: rest =>
      let s1 := tickPenguinSeal s
      let s2 := { s1 with state := if o.isLand s1.x s1.y then "land" else "sea" }
      ({ w1 with seals := s2 :: rest }, some attrErrSeal)
    | [] => (tickWorld o w, none)

/-- SimulationEngine.step(n) as the staged source executes it: run tick up to
n times, stopping at the first raised error (the exception propagates out of
the loop). -/
def stepChecked (os : ℕ → TickOracle) : ℕ → World → World × Option String
  | 0, w => (w, none)
  | n + 1, w =>
    match tickWorldChecked (os 0) w with
    | (w1, none) => stepChecked (fun k => os (k + 1)) n w1
    | (w1, some e) => (w1, some e)

/-- SimulationService.step (backend/service.py lines 61-72) as the staged
source executes it: reject a step count outside 1..100 with a ValueError
before touching the engine, otherwise forward to the engine step, whose
AttributeError (if any) propagates to the caller. -/
def serviceStepChecked (os : ℕ → TickOracle) (n : ℤ) (w : World) :
    World × Option String :=
  if n < 1 ∨ 100 < n then (w, some "n must be between 1 and 100")
  else stepChecked os n.toNat w

/-! ### Initial world (engine.py, SimulationEngine._initialize_world) -/

/-- The RNG draws of world seeding: the final position, energy and age of the
i-th animal of each species; `pland` tells whether the i-th penguin position
lies on land and `sland` whether the i-th seal position lies in the sea,
matching the state each constructor receives (the rejection-sampling placement
loops are abstracted as their resulting position). -/
structure InitOracle where
  px : ℕ → ℚ
  py : ℕ → ℚ
  pe : ℕ → ℚ
  page : ℕ → ℤ
  pland : ℕ → Bool
  sx : ℕ → ℚ
  sy : ℕ → ℚ
  se : ℕ → ℚ
  sage : ℕ → ℤ
  sland : ℕ → Bool
  fx : ℕ → ℚ
  fy : ℕ → ℚ
  fe : ℕ → ℚ

/-- SimulationEngine._initialize_world: 10 penguins with ids penguin_0 ..
penguin_9, 5 seals seal_0 .. seal_4, 50 fish fish_0 .. fish_49 (the INITIAL_*
configuration constants), each at an oracle-drawn position with an
oracle-drawn energy; penguins and seals get a random starting age and their
position tracking initialised. -/
def initWorld (o : InitOracle) (width height : ℤ) : World :=
  { tick := 0,
    penguins := (List.range 10).map (fun i =>
      { mkPenguin ("penguin_" ++ toString i) (o.px i) (o.py i) (o.pe i) with
        age := o.page i, state := if o.pland i then "land" else "sea",
        lastX := o.px i, lastY := o.py i }),
    seals := (List.range 5).map (fun i =>
      { mkSeal ("seal_" ++ toString i) (o.sx i) (o.sy i) (o.se i) with
        age := o.sage i, state := if o.sland i then "sea" else "land",
        lastX := o.sx i, lastY := o.sy i }),
    fish := (List.range 50).map (fun i =>
      mkFish ("fish_" ++ toString i) (o.fx i) (o.fy i) (o.fe i)),
    width := width, height := height }

/-- A concrete seeding oracle: every draw zero. -/
def trivInitOracle : InitOracle :=
  { px := fun _ => 0, py := fun _ => 0, pe := fun _ => 0, page := fun _ => 0,
    pland := fun _ => true, sx := fun _ => 0, sy := fun _ => 0, se := fun _ => 0,
    sage := fun _ => 0, sland := fun _ => true, fx := fun _ => 0,
    fy := fun _ => 0, fe := fun _ => 0 }

/-! ### The movement contract claimed by the specification -/

/-- Modelled from the claim wording, for comparison with `Animal.move`:
position set to (x+dx, y+dy) clamped componentwise into
[0, width-1] x [0, height-1], previous position stored, energy decremented by
exactly 0.05 with no floor, and the flag true exactly when a coordinate was
clamped. -/
def claimedMove (a : Animal) (dx dy : ℚ) (worldWidth worldHeight : ℤ) :
    Animal × Bool :=
  let rx := qAdd a.x dx
  let ry := qAdd a.y dy
  let cx := max 0 (min rx (qSub (worldWidth : ℚ) 1))
  let cy := max 0 (min ry (qSub (worldHeight : ℚ) 1))
  ({ a with lastX := a.x, lastY := a.y, x := cx, y := cy,
            energy := qSub a.energy (mkRat 1 20) },
   decide (¬ cx = rx) || decide (¬ cy = ry))

/-! ### Concrete scenario data used by the counterexamples -/

/-- A seal hunting in the sea. -/
def cSeal : Animal :=
  mkSeal "seal_0" 0 0 100

/-- A fish whose position the drifting terrain has turned into land (the
engine then assigns state "land" in `_move_animal`). -/
def cLandFish : Animal :=
  { mkFish "fish_0" 3 0 40 with state := "land" }

/-- A world in which the only living prey is a fish on land, 3 units from a
seal in the sea. -/
def crossMediaWorld : World :=
  { tick := 0, penguins := [], seals := [cSeal], fish := [cLandFish],
    width := 800, height := 600 }

/-- A penguin swimming 3 units from `cSeal`. -/
def cSeaPenguin : Animal :=
  { mkPenguin "penguin_0" 3 0 100 with state := "sea" }

/-- A fish in the sea 3 units from `cSeal`. -/
def cSeaFish : Animal :=
  mkFish "fish_0" 0 3 40

/-- A world in which one seal has both a penguin and a fish in strike range. -/
def doubleKillWorld : World :=
  { tick := 0, penguins := [cSeaPenguin], seals := [cSeal], fish := [cSeaFish],
    width := 800, height := 600 }

/-! ### Specification predicates -/

/-- The exact movement contract of `Animal.move`: previous position stored,
energy decremented by exactly 0.05 with no floor, each coordinate kept when the
raw target lies inside [0, size) and snapped to 0 or size - 1 otherwise (so a
coordinate strictly between size - 1 and size is kept, not clamped), the result
always inside [0, size) for positive world sizes, and the boundary flag true
exactly when a raw coordinate fell outside its range. -/
def MoveSpec (a : Animal) (dx dy : ℚ) (W H : ℤ) : Prop :=
  (a.move dx dy W H).1.lastX = a.x ∧
  (a.move dx dy W H).1.lastY = a.y ∧
  (a.move dx dy W H).1.energy = a.energy - 1/20 ∧
  (a.x + dx < 0 → (a.move dx dy W H).1.x = 0) ∧
  (0 ≤ a.x + dx → (W : ℚ) ≤ a.x + dx → (a.move dx dy W H).1.x = (W : ℚ) - 1) ∧
  (0 ≤ a.x + dx → a.x + dx < (W : ℚ) → (a.move dx dy W H).1.x = a.x + dx) ∧
  (a.y + dy < 0 → (a.move dx dy W H).1.y = 0) ∧
  (0 ≤ a.y + dy → (H : ℚ) ≤ a.y + dy → (a.move dx dy W H).1.y = (H : ℚ) - 1) ∧
  (0 ≤ a.y + dy → a.y + dy < (H : ℚ) → (a.move dx dy W H).1.y = a.y + dy) ∧
  (1 ≤ W → 1 ≤ H →
    0 ≤ (a.move dx dy W H).1.x ∧ (a.move dx dy W H).1.x < (W : ℚ) ∧
    0 ≤ (a.move dx dy W H).1.y ∧ (a.move dx dy W H).1.y < (H : ℚ)) ∧
  ((a.move dx dy W H).2 = true ↔
    (a.x + dx < 0 ∨ (W : ℚ) ≤ a.x + dx ∨ a.y + dy < 0 ∨ (H : ℚ) ≤ a.y + dy))

/-- The invariant of claim C1 for one animal, with the position bound guarded
on the age: every animal that was already present when the tick started was
moved during the tick and so has age at least 1. -/
def CoreInvariant (W H : ℤ) (a : Animal) : Prop :=
  0 ≤ a.energy ∧ a.energy ≤ a.maxEnergy ∧ 0 ≤ a.age ∧
  (1 ≤ a.age → 0 ≤ a.x ∧ a.x < (W : ℚ) ∧ 0 ≤ a.y ∧ a.y < (H : ℚ))

/-- Basic well-formedness of a world state: every animal respects its energy
cap, has a nonnegative energy cap, and a nonnegative age.  This holds for
every state the engine constructs. -/
def WorldWF (w : World) : Prop :=
  ∀ a ∈ allAnimals w, a.energy ≤ a.maxEnergy ∧ 0 ≤ a.maxEnergy ∧ 0 ≤ a.age

instance (w : World) : Decidable (WorldWF w) := by
  unfold WorldWF
  infer_instance

/-- The invariant carried through the phases of one tick, before the final
garbage collection adds the positivity of energy: the energy cap and age are
respected, and every animal already moved this tick (age at least 1) sits
inside the map. -/
def MidInv (W H : ℤ) (a : Animal) : Prop :=
  a.energy ≤ a.maxEnergy ∧ 0 ≤ a.maxEnergy ∧ 0 ≤ a.age ∧
  (1 ≤ a.age → 0 ≤ a.x ∧ a.x < (W : ℚ) ∧ 0 ≤ a.y ∧ a.y < (H : ℚ))

/-! ### Further concrete scenario data -/

/-- An engine holding a single fish, used to instantiate the universally
quantified theorems at a concrete input. -/
def oneFishEngine : EngineState :=
  ⟨⟨0, [], [], [mkFish "fish_0" 1 1 40], 800, 600⟩,
   (SpatialGrid.create 800 600 100).add "fish_0" 1 1⟩

/-- The first animal left after ticking `oneFishEngine`. -/
def oneFishSurvivor : Animal :=
  (allAnimals (getState (tickEngine trivOracle oneFishEngine))).getD 0
    (mkFish "none" 0 0 0)

/-- Engine start state of the stale-grid scenario: one fish inserted into the
grid at (50, 50). -/
def c2Engine0 : EngineState :=
  ⟨⟨0, [], [], [mkFish "fish_0" 50 50 40], 800, 600⟩,
   (SpatialGrid.create 800 600 100).add "fish_0" 50 50⟩

/-- Oracle of the stale-grid scenario: the behaviour decision moves the fish 8
units to the right every tick (within the speed the decision procedure can
produce for a fish in water). -/
def c2Oracle : TickOracle :=
  { trivOracle with fishAI := fun _ => ⟨8, 0, "idle", "", 0, 0⟩ }

/-- The engine after 50 ticks of the stale-grid scenario: the fish has swum
from (50, 50) to (450, 50), four grid cells away from the cell that still
stores it. -/
def c2Final : EngineState :=
  step (fun _ => c2Oracle) 50 c2Engine0

/-- Two breeding-eligible fish (alive, energy above 30 through the tick)
swimming against the right map border, in a world with no penguins and no
seals, so its ticks complete in the staged source. -/
def c1World : World :=
  ⟨0, [], [], [mkFish "fish_0" 799 100 40, mkFish "fish_1" 799 103 40],
   800, 600⟩

/-- Oracle for the out-of-bounds offspring scenario: all-sea terrain, the fish
breeding probability roll succeeds, the shuffle keeps list order, and the
breeding jitter draws +5/2 in x (inside the uniform (-3, 3) range of
Fish.breed). -/
def c1Oracle : TickOracle :=
  { trivOracle with
    fishRoll := true
    fishPerm := [0, 1]
    fishDraws := fun _ => ⟨23456, mkRat 5 2, 0, 0, 0⟩ }

/-- Four breeding-eligible fish forming two pairs, in a world with no penguins
and no seals, so its ticks complete in the staged source. -/
def c9World : World :=
  ⟨0, [], [],
   [mkFish "fish_0" 0 0 40, mkFish "fish_1" 1 0 40,
    mkFish "fish_2" 2 0 40, mkFish "fish_3" 3 0 40],
   800, 600⟩

/-- Oracle for the duplicate-id scenario: the fish breeding roll succeeds, the
shuffle keeps list order, and both breeding events draw the same
randint(10000, 99999) id suffix 12345. -/
def c9Oracle : TickOracle :=
  { trivOracle with
    fishRoll := true
    fishPerm := [0, 1, 2, 3]
    fishDraws := fun _ => ⟨12345, 1, 1, 0, 0⟩ }

/-- A world holding a single penguin: the smallest world whose tick reaches
the missing `get_speed`. -/
def onePenguinWorld : World :=
  ⟨0, [mkPenguin "penguin_0" 100 100 100], [], [], 800, 600⟩

/-- A world holding a single seal (and no penguins): its tick aborts at the
seal loop. -/
def oneSealWorld : World :=
  ⟨0, [], [mkSeal "seal_0" 100 100 100], [], 800, 600⟩

/-- Concrete eligible penguin pair for the breeding scenario, 5 units apart. -/
def c7P1 : Animal :=
  mkPenguin "penguin_0" 100 100 100

/-- Second penguin of the pair: distance 5 from `c7P1` (3-4-5 triangle). -/
def c7P2 : Animal :=
  mkPenguin "penguin_1" 103 104 100

/-- Oracle whose shuffle pairs the two eligible penguins in order. -/
def c7Oracle : TickOracle :=
  { trivOracle with penguinPerm := [0, 1] }

/-! ### The computable rational operations agree with the Mathlib operations -/

theorem den_cast_ne_zero (a : ℚ) : ((a.den : ℚ)) ≠ 0 :=
  Nat.cast_ne_zero.mpr a.den_nz

theorem num_eq_mul_den (a : ℚ) : (a.num : ℚ) = a * (a.den : ℚ) :=
  (div_eq_iff (den_cast_ne_zero a)).mp (Rat.num_div_den a)

@[simp] theorem qAdd_eq (a b : ℚ) : qAdd a b = a + b := by
  rw [qAdd, Rat.mkRat_eq_div]
  push_cast
  rw [div_eq_iff (mul_ne_zero (den_cast_ne_zero a) (den_cast_ne_zero b)),
    num_eq_mul_den a, num_eq_mul_den b]
  ring

@[simp] theorem qSub_eq (a b : ℚ) : qSub a b = a - b := by
  rw [qSub, Rat.mkRat_eq_div]
  push_cast
  rw [div_eq_iff (mul_ne_zero (den_cast_ne_zero a) (den_cast_ne_zero b)),
    num_eq_mul_den a, num_eq_mul_den b]
  ring

@[simp] theorem qMul_eq (a b : ℚ) : qMul a b = a * b := by
  rw [qMul, Rat.mkRat_eq_div]
  push_cast
  rw [div_eq_iff (mul_ne_zero (den_cast_ne_zero a) (den_cast_ne_zero b)),
    num_eq_mul_den a, num_eq_mul_den b]
  ring

@[simp] theorem qInv_eq (b : ℚ) : qInv b = b⁻¹ := by
  rw [qInv, Rat.inv_def']

@[simp] theorem qDiv_eq (a b : ℚ) : qDiv a b = a / b := by
  rw [qDiv, qMul_eq, qInv_eq, div_eq_mul_inv]

@[simp] theorem qDistSq_eq (x1 y1 x2 y2 : ℚ) :
    qDistSq x1 y1 x2 y2 = (x1 - x2) * (x1 - x2) + (y1 - y2) * (y1 - y2) := by
  rw [qDistSq, qAdd_eq, qMul_eq, qMul_eq, qSub_eq, qSub_eq]

@[simp] theorem mkRat_one_twenty : (mkRat 1 20 : ℚ) = 1/20 := by
  rw [Rat.mkRat_eq_div]
  norm_num

@[simp] theorem mkRat_one_forty : (mkRat 1 40 : ℚ) = 1/40 := by
  rw [Rat.mkRat_eq_div]
  norm_num

/-! ### Lemmas about Animal.move -/

theorem move_lastX (a : Animal) (dx dy : ℚ) (W H : ℤ) :
    (a.move dx dy W H).1.lastX = a.x := rfl

theorem move_lastY (a : Animal) (dx dy : ℚ) (W H : ℤ) :
    (a.move dx dy W H).1.lastY = a.y := rfl

theorem move_energy (a : Animal) (dx dy : ℚ) (W H : ℤ) :
    (a.move dx dy W H).1.energy = a.energy - 1/20 := by
  rw [show (a.move dx dy W H).1.energy = qSub a.energy (mkRat 1 20) from rfl,
    qSub_eq, mkRat_one_twenty]

theorem move_age (a : Animal) (dx dy : ℚ) (W H : ℤ) :
    (a.move dx dy W H).1.age = a.age := rfl

theorem move_maxEnergy (a : Animal) (dx dy : ℚ) (W H : ℤ) :
    (a.move dx dy W H).1.maxEnergy = a.maxEnergy := rfl

theorem move_x (a : Animal) (dx dy : ℚ) (W H : ℤ) :
    (a.move dx dy W H).1.x =
      if a.x + dx < 0 then 0
      else if (W : ℚ) ≤ a.x + dx then (W : ℚ) - 1
      else a.x + dx := by
  simp only [Animal.move, qAdd_eq, qSub_eq]
  split_ifs <;> rfl

theorem move_y (a : Animal) (dx dy : ℚ) (W H : ℤ) :
    (a.move dx dy W H).1.y =
      if a.y + dy < 0 then 0
      else if (H : ℚ) ≤ a.y + dy then (H : ℚ) - 1
      else a.y + dy := by
  simp only [Animal.move, qAdd_eq, qSub_eq]
  split_ifs <;> rfl

theorem move_hit (a : Animal) (dx dy : ℚ) (W H : ℤ) :
    (a.move dx dy W H).2 = true ↔
      (a.x + dx < 0 ∨ (W : ℚ) ≤ a.x + dx ∨ a.y + dy < 0 ∨ (H : ℚ) ≤ a.y + dy) := by
  simp only [Animal.move, qAdd_eq, qSub_eq]
  split_ifs <;> simp_all

theorem move_x_bounds (a : Animal) (dx dy : ℚ) (W H : ℤ) (hW : 1 ≤ W) :
    0 ≤ (a.move dx dy W H).1.x ∧ (a.move dx dy W H).1.x < (W : ℚ) := by
  have hW1 : (1 : ℚ) ≤ (W : ℚ) := by exact_mod_cast hW
  rw [move_x]
  split_ifs with h1 h2
  · constructor <;> linarith
  · constructor <;> linarith
  · constructor <;> linarith

theorem move_y_bounds (a : Animal) (dx dy : ℚ) (W H : ℤ) (hH : 1 ≤ H) :
    0 ≤ (a.move dx dy W H).1.y ∧ (a.move dx dy W H).1.y < (H : ℚ) := by
  have hH1 : (1 : ℚ) ≤ (H : ℚ) := by exact_mod_cast hH
  rw [move_y]
  split_ifs with h1 h2
  · constructor <;> linarith
  · constructor <;> linarith
  · constructor <;> linarith

/-! ### Claim C10: the movement contract -/

/-- C10 counterexample: at x = 0, dx = 3/2 in a width-2 world the raw target
3/2 lies strictly between width - 1 and width; `Animal.move` keeps it and
reports no boundary hit, while the claimed clamp into [0, width - 1] would
move it to 1 and report a clamp. -/
theorem move_counterexample_not_clamped :
    ((mkPenguin "p" 0 0 10).move (3/2) 0 2 2).1.x = 3/2 ∧
    (claimedMove (mkPenguin "p" 0 0 10) (3/2) 0 2 2).1.x = 1 ∧
    ((mkPenguin "p" 0 0 10).move (3/2) 0 2 2).2 = false ∧
    (claimedMove (mkPenguin "p" 0 0 10) (3/2) 0 2 2).2 = true := by
  norm_num [Animal.move, claimedMove, mkPenguin]

/-- C10 amended: `Animal.move` stores the previous position, subtracts exactly
0.05 from energy with no floor, keeps a raw coordinate inside [0, size) and
snaps coordinates below 0 to 0 and coordinates at or above size to size - 1,
stays inside [0, size) for positive sizes, and returns true exactly when a raw
coordinate fell outside [0, size). -/
theorem move_follows_python_semantics (a : Animal) (dx dy : ℚ) (W H : ℤ) :
    MoveSpec a dx dy W H := by
  unfold MoveSpec
  refine ⟨move_lastX a dx dy W H, move_lastY a dx dy W H,
    move_energy a dx dy W H, ?_, ?_, ?_, ?_, ?_, ?_, ?_, move_hit a dx dy W H⟩
  · intro h; rw [move_x, if_pos h]
  · intro h0 h1
    rw [move_x, if_neg (by linarith), if_pos h1]
  · intro h0 h1
    rw [move_x, if_neg (by linarith), if_neg (by linarith)]
  · intro h; rw [move_y, if_pos h]
  · intro h0 h1
    rw [move_y, if_neg (by linarith), if_pos h1]
  · intro h0 h1
    rw [move_y, if_neg (by linarith), if_neg (by linarith)]
  · intro hW hH
    exact ⟨(move_x_bounds a dx dy W H hW).1, (move_x_bounds a dx dy W H hW).2,
      (move_y_bounds a dx dy W H hH).1, (move_y_bounds a dx dy W H hH).2⟩

/-- C10 witness: the amended movement contract at a concrete input. -/
theorem move_follows_python_semantics_witness :
    MoveSpec (mkPenguin "p" 0 0 10) 1 1 5 5 :=
  move_follows_python_semantics (mkPenguin "p" 0 0 10) 1 1 5 5

/-! ### Tick counter bookkeeping -/

theorem handleBreeding_tick (o : TickOracle) (w : World) :
    (handleBreeding o w).1.tick = w.tick := rfl

theorem handleSpawning_tick (o : TickOracle) (w : World) :
    (handleSpawning o w).1.tick = w.tick := by
  unfold handleSpawning
  split_ifs <;> rfl

theorem removeDeadAnimals_tick (w : World) :
    (removeDeadAnimals w).1.tick = w.tick := rfl

theorem tickWorld_tick (o : TickOracle) (w : World) :
    (tickWorld o w).tick = w.tick + 1 := by
  unfold tickWorld tickWorldLog
  rw [removeDeadAnimals_tick, handleSpawning_tick, handleBreeding_tick]
  rfl

theorem tickEngine_world (o : TickOracle) (s : EngineState) :
    (tickEngine o s).world = tickWorld o s.world := rfl

theorem step_world_tick (os : ℕ → TickOracle) (n : ℕ) (s : EngineState) :
    (step os n s).world.tick = s.world.tick + n := by
  induction n generalizing os s with
  | zero => simp [step]
  | succ m ih =>
    show (step (fun k => os (k + 1)) m (tickEngine (os 0) s)).world.tick = _
    rw [ih, tickEngine_world, tickWorld_tick]
    push_cast
    ring

/-! ### The staged tick: where it completes and where it aborts -/

theorem handleSpawning_penguins (o : TickOracle) (w : World) :
    (handleSpawning o w).1.penguins = w.penguins := by
  unfold handleSpawning
  split_ifs <;> rfl

theorem handleSpawning_seals (o : TickOracle) (w : World) :
    (handleSpawning o w).1.seals = w.seals := by
  unfold handleSpawning
  split_ifs <;> rfl

theorem removeDead_penguins (w : World) :
    (removeDeadAnimals w).1.penguins = w.penguins.filter (·.isAlive) := rfl

theorem removeDead_seals (w : World) :
    (removeDeadAnimals w).1.seals = w.seals.filter (·.isAlive) := rfl

/-- On a world with no penguins and no seals the staged tick runs the full
pipeline and raises nothing: the aborting model agrees with the completed-tick
model. -/
theorem tickWorldChecked_fishOnly (o : TickOracle) (w : World)
    (hp : w.penguins = []) (hs : w.seals = []) :
    tickWorldChecked o w = (tickWorld o w, none) := by
  obtain ⟨t, pens, seals, fish, W, H⟩ := w
  cases hp
  cases hs
  rfl

/-- Whether the staged tick completes or aborts, the tick counter is
incremented exactly once, at the top of tick(). -/
theorem tickWorldChecked_tick (o : TickOracle) (w : World) :
    (tickWorldChecked o w).1.tick = w.tick + 1 := by
  obtain ⟨t, pens, seals, fish, W, H⟩ := w
  cases pens with
  | cons p rest => rfl
  | nil =>
    cases seals with
    | cons s rest => rfl
    | nil => exact tickWorld_tick o ⟨t, [], [], fish, W, H⟩

/-- A completed tick over a world with no penguins and no seals produces no
penguins and no seals: predation cannot create predators, breeding guards on
two eligible parents, and spawning only adds fish. -/
theorem tickWorld_fishOnly_shape (o : TickOracle) (w : World)
    (hp : w.penguins = []) (hs : w.seals = []) :
    (tickWorld o w).penguins = [] ∧ (tickWorld o w).seals = [] := by
  obtain ⟨t, pens, seals, fish, W, H⟩ := w
  cases hp
  cases hs
  unfold tickWorld tickWorldLog
  dsimp only
  constructor
  · rw [removeDead_penguins, handleSpawning_penguins]
    rfl
  · rw [removeDead_seals, handleSpawning_seals]
    rfl

/-- On worlds with no penguins and no seals the staged step(n) raises nothing
and advances the tick counter by exactly n — the claimed behaviour is real
precisely where the missing `get_speed` is unreachable. -/
theorem stepChecked_fishOnly (os : ℕ → TickOracle) (n : ℕ) (w : World)
    (hp : w.penguins = []) (hs : w.seals = []) :
    (stepChecked os n w).2 = none ∧
    (stepChecked os n w).1.tick = w.tick + n ∧
    (stepChecked os n w).1.penguins = [] ∧
    (stepChecked os n w).1.seals = [] := by
  induction n generalizing os w with
  | zero => exact ⟨rfl, by simp [stepChecked], hp, hs⟩
  | succ m ih =>
    have hfo := tickWorldChecked_fishOnly (os 0) w hp hs
    have hsh := tickWorld_fishOnly_shape (os 0) w hp hs
    have hred : stepChecked os (m + 1) w
        = stepChecked (fun k => os (k + 1)) m (tickWorld (os 0) w) := by
      conv_lhs => rw [stepChecked]
      rw [hfo]
    rw [hred]
    obtain ⟨h1, h2, h3, h4⟩ := ih (fun k => os (k + 1)) (tickWorld (os 0) w) hsh.1 hsh.2
    refine ⟨h1, ?_, h3, h4⟩
    rw [h2, tickWorld_tick]
    push_cast
    ring

/-- The service validation is raised before the engine is reached: an
out-of-range step count returns the exact ValueError message with the world
untouched. -/
theorem serviceStepChecked_rejects (os : ℕ → TickOracle) (n : ℤ) (w : World)
    (h : n < 1 ∨ 100 < n) :
    serviceStepChecked os n w = (w, some "n must be between 1 and 100") := by
  unfold serviceStepChecked
  rw [if_pos h]

/-- An in-range step count is forwarded to the engine step unchanged. -/
theorem serviceStepChecked_accepts (os : ℕ → TickOracle) (n : ℤ) (w : World)
    (h1 : 1 ≤ n) (h2 : n ≤ 100) :
    serviceStepChecked os n w = stepChecked os n.toNat w := by
  unfold serviceStepChecked
  rw [if_neg (by omega)]

/-! ### Claim C5: what step(n) does in the staged snapshot -/

set_option maxRecDepth 4000 in
/-- C5: evaluated on the staged source the claim fails: step(2) on a world
holding one penguin raises the AttributeError of the nonexistent `get_speed`
(engine.py line 278) out of the first tick and leaves the tick counter at 1,
not 2; a lone seal fails the same way, and the constructor-built world always
holds 10 penguins, so every engine built by SimulationEngine() is in the
crashing class.  Where the crash site is unreachable the claimed advance is
real: on the fish-only world step(5) completes and ends at tick 5
(`stepChecked_fishOnly` proves the general law). -/
theorem step_crashes_before_advancing_n_ticks :
    (stepChecked (fun _ => trivOracle) 2 onePenguinWorld).2 = some attrErrPenguin ∧
    (stepChecked (fun _ => trivOracle) 2 onePenguinWorld).1.tick = 1 ∧
    (stepChecked (fun _ => trivOracle) 2 oneSealWorld).2 = some attrErrSeal ∧
    (stepChecked (fun _ => trivOracle) 2 oneSealWorld).1.tick = 1 ∧
    (initWorld trivInitOracle 800 600).penguins.length = 10 ∧
    (stepChecked (fun _ => trivOracle) 5 oneFishEngine.world).2 = none ∧
    (stepChecked (fun _ => trivOracle) 5 oneFishEngine.world).1.tick = 5 := by
  decide

/-! ### Claim C8: the service-layer step call in the staged snapshot -/

set_option maxRecDepth 4000 in
/-- C8: the validation half of the claim is faithful — a step count outside
1..100 is rejected with the descriptive message before the engine is touched,
leaving the world including its tick counter unchanged — but an accepted call
does not advance the simulation by n ticks on the staged source: it forwards
to engine.step, which raises the AttributeError of the nonexistent
`get_speed` (engine.py line 278) during the first tick, leaving the counter
at 1 instead of n.  On a world with no penguins and no seals an accepted call
does advance by exactly n. -/
theorem serviceStep_validates_but_crashes :
    serviceStepChecked (fun _ => trivOracle) 0 onePenguinWorld
      = (onePenguinWorld, some "n must be between 1 and 100") ∧
    serviceStepChecked (fun _ => trivOracle) 101 onePenguinWorld
      = (onePenguinWorld, some "n must be between 1 and 100") ∧
    (serviceStepChecked (fun _ => trivOracle) 5 onePenguinWorld).2 = some attrErrPenguin ∧
    (serviceStepChecked (fun _ => trivOracle) 5 onePenguinWorld).1.tick = 1 ∧
    (serviceStepChecked (fun _ => trivOracle) 3 oneFishEngine.world).2 = none ∧
    (serviceStepChecked (fun _ => trivOracle) 3 oneFishEngine.world).1.tick = 3 := by
  decide

/-! ### Claim C2: the spatial grid goes stale because movement never updates it -/

/-- A tick whose predation, breeding, spawning and removal phases touch no
animal leaves the spatial grid exactly as it was: in particular the movement
phase performs no grid bookkeeping, because `SimulationEngine._move_animal`
never calls `SpatialGrid.update`. -/
theorem tick_without_events_keeps_grid (o : TickOracle) (s : EngineState)
    (hk : (tickWorldLog o s.world).2.killed = [])
    (hb : (tickWorldLog o s.world).2.born = [])
    (hs : (tickWorldLog o s.world).2.spawned = [])
    (hd : (tickWorldLog o s.world).2.died = []) :
    (tickEngine o s).grid = s.grid := by
  unfold tickEngine
  dsimp only
  rw [hk, hb, hs, hd]
  rfl

set_option maxRecDepth 8000 in
/-- C2: after 50 engine ticks in which the only fish swims from (50, 50) to
(450, 50) — the grid never being told — the radius-10 query at the current
position of the fish misses it (its stale cell (0, 0) lies outside the scanned
ring around cell (4, 0)), while the brute-force distance scan finds it.  The
two queries disagree, refuting the claimed equivalence. -/
theorem stale_grid_query_misses_moved_animal :
    ((c2Final.grid.getNearbyAnimals (allAnimals c2Final.world) 450 50 10 none).map
      (fun a => a.id) = []) ∧
    ((bruteForceRadius (allAnimals c2Final.world) 450 50 10).map
      (fun a => a.id) = ["fish_0"]) ∧
    c2Final.grid = c2Engine0.grid := by
  decide

/-- C2 auxiliary witness fact for the grid-preservation lemma: the stale-grid
scenario ticks indeed log no predation, birth, spawn or death events, so the
grid of `c2Engine0` is carried through unchanged. -/
theorem tick_without_events_keeps_grid_witness :
    (tickEngine c2Oracle c2Engine0).grid = c2Engine0.grid := by
  apply tick_without_events_keeps_grid <;> decide

/-! ### Claim C3: what predation strikes can and cannot do -/

/-- C3 counterexample: a seal hunting in the sea consumes a fish that is on
land (fish predation never checks the medium of the fish), so a kill across
incompatible media is possible; only the seal-penguin pair is medium-checked. -/
theorem cross_media_fish_kill :
    (handlePredation crossMediaWorld).killedFishBySeals.map (fun a => a.id) = ["fish_0"] ∧
    cSeal.state = "sea" ∧ cLandFish.state = "land" ∧
    (handlePredation crossMediaWorld).world.fish = [] ∧
    (handlePredation crossMediaWorld).world.seals.length = 1 := by
  decide

/-! ### Claim C4: kills per predator per tick -/

/-- C4 counterexample: one seal with a penguin and a fish both in strike range
kills the penguin in the seal-penguin pass and then also the fish in the
seal-fish pass of the same tick: two kills by one predator in one predation
pass. -/
theorem seal_double_kill :
    (handlePredation doubleKillWorld).killedPenguins.map (fun a => a.id) = ["penguin_0"] ∧
    (handlePredation doubleKillWorld).killedFishBySeals.map (fun a => a.id) = ["fish_0"] ∧
    doubleKillWorld.seals.length = 1 := by
  decide

/-! ### Structure of a predation pass -/

theorem runPred_preds_length (ch : Animal → Bool) (sc : Animal → Animal → Bool)
    (g : ℚ) : ∀ preds prey : List Animal,
    (runPred ch sc g preds prey).preds.length = preds.length := by
  intro preds
  induction preds with
  | nil => intro prey; rfl
  | cons s rest ih =>
    intro prey
    unfold runPred
    by_cases hch : ch s
    · cases hfind : prey.find? (sc s) with
      | some v => simp [hch, hfind, ih]
      | none => simp [hch, hfind, ih]
    · simp [hch, ih]

theorem runPred_prey_sublist (ch : Animal → Bool) (sc : Animal → Animal → Bool)
    (g : ℚ) : ∀ preds prey : List Animal,
    (runPred ch sc g preds prey).prey.Sublist prey := by
  intro preds
  induction preds with
  | nil => intro prey; exact List.Sublist.refl prey
  | cons s rest ih =>
    intro prey
    unfold runPred
    by_cases hch : ch s
    · cases hfind : prey.find? (sc s) with
      | some v =>
        simp only [hch, hfind, if_true]
        exact (ih (prey.erase v)).trans (prey.erase_sublist v)
      | none => simp only [hch, hfind, if_true]; exact ih prey
    · simp only [hch, if_false, Bool.false_eq_true]
      exact ih prey

theorem runPred_count (ch : Animal → Bool) (sc : Animal → Animal → Bool)
    (g : ℚ) : ∀ preds prey : List Animal,
    (runPred ch sc g preds prey).prey.length +
      (runPred ch sc g preds prey).killed.length = prey.length := by
  intro preds
  induction preds with
  | nil => intro prey; simp [runPred]
  | cons s rest ih =>
    intro prey
    unfold runPred
    by_cases hch : ch s
    · cases hfind : prey.find? (sc s) with
      | some v =>
        have hv : v ∈ prey := List.mem_of_find?_eq_some hfind
        have hlen : (prey.erase v).length = prey.length - 1 :=
          List.length_erase_of_mem hv
        have hpos : 1 ≤ prey.length := List.length_pos_of_mem hv
        have := ih (prey.erase v)
        simp only [hch, hfind, if_true, List.length_cons]
        omega
      | none => simp only [hch, hfind, if_true]; exact ih prey
    · simp only [hch, if_false, Bool.false_eq_true]
      exact ih prey

theorem runPred_killed_spec (ch : Animal → Bool) (sc : Animal → Animal → Bool)
    (g : ℚ) : ∀ preds prey : List Animal,
    ∀ v ∈ (runPred ch sc g preds prey).killed,
      v ∈ prey ∧ ∃ s ∈ preds, ch s = true ∧ sc s v = true := by
  intro preds
  induction preds with
  | nil => intro prey v hv; simp [runPred] at hv
  | cons s rest ih =>
    intro prey v hv
    unfold runPred at hv
    by_cases hch : ch s
    · cases hfind : prey.find? (sc s) with
      | some w =>
        simp only [hch, hfind, if_true, List.mem_cons] at hv
        rcases hv with rfl | hv
        · exact ⟨List.mem_of_find?_eq_some hfind,
            s, List.mem_cons_self s rest, hch, List.find?_some hfind⟩
        · obtain ⟨hmem, t, ht, hcht, hsct⟩ := ih (prey.erase w) v hv
          exact ⟨List.mem_of_mem_erase hmem, t, List.mem_cons_of_mem s ht, hcht, hsct⟩
      | none =>
        simp only [hch, hfind, if_true] at hv
        obtain ⟨hmem, t, ht, hcht, hsct⟩ := ih prey v hv
        exact ⟨hmem, t, List.mem_cons_of_mem s ht, hcht, hsct⟩
    · simp only [hch, if_false, Bool.false_eq_true] at hv
      obtain ⟨hmem, t, ht, hcht, hsct⟩ := ih prey v hv
      exact ⟨hmem, t, List.mem_cons_of_mem s ht, hcht, hsct⟩

theorem runPred_killed_le_preds (ch : Animal → Bool) (sc : Animal → Animal → Bool)
    (g : ℚ) : ∀ preds prey : List Animal,
    (runPred ch sc g preds prey).killed.length ≤ preds.length := by
  intro preds
  induction preds with
  | nil => intro prey; simp [runPred]
  | cons s rest ih =>
    intro prey
    unfold runPred
    by_cases hch : ch s
    · cases hfind : prey.find? (sc s) with
      | some v =>
        simp only [hch, hfind, if_true, List.length_cons]
        exact Nat.succ_le_succ (ih (prey.erase v))
      | none =>
        simp only [hch, hfind, if_true, List.length_cons]
        exact (ih prey).trans (Nat.le_succ _)
    · simp only [hch, if_false, Bool.false_eq_true, List.length_cons]
      exact (ih prey).trans (Nat.le_succ _)

theorem runPred_preds_shape (ch : Animal → Bool) (sc : Animal → Animal → Bool)
    (g : ℚ) : ∀ preds prey : List Animal,
    ∀ x ∈ (runPred ch sc g preds prey).preds,
      ∃ s ∈ preds, x = s ∨ x = afterKill g s := by
  intro preds
  induction preds with
  | nil => intro prey x hx; simp [runPred] at hx
  | cons s rest ih =>
    intro prey x hx
    unfold runPred at hx
    by_cases hch : ch s
    · cases hfind : prey.find? (sc s) with
      | some v =>
        simp only [hch, hfind, if_true, List.mem_cons] at hx
        rcases hx with rfl | hx
        · exact ⟨s, List.mem_cons_self s rest, Or.inr rfl⟩
        · obtain ⟨t, ht, hxt⟩ := ih (prey.erase v) x hx
          exact ⟨t, List.mem_cons_of_mem s ht, hxt⟩
      | none =>
        simp only [hch, hfind, if_true, List.mem_cons] at hx
        rcases hx with hx | hx
        · exact ⟨s, List.mem_cons_self s rest, Or.inl hx⟩
        · obtain ⟨t, ht, hxt⟩ := ih prey x hx
          exact ⟨t, List.mem_cons_of_mem s ht, hxt⟩
    · simp only [hch, if_false, Bool.false_eq_true, List.mem_cons] at hx
      rcases hx with hx | hx
      · exact ⟨s, List.mem_cons_self s rest, Or.inl hx⟩
      · obtain ⟨t, ht, hxt⟩ := ih prey x hx
        exact ⟨t, List.mem_cons_of_mem s ht, hxt⟩

/-- C3 amended: predation never removes a predator (the seal count is
preserved, and penguins and fish shrink only by the logged kills, one animal
per successful strike); every killed penguin was alive and within distance 10
of a live seal in the same medium; every killed fish was alive and within the
strike distance of a live predator in the sea — with no condition on the
medium of the fish itself (see the cross-media counterexample). -/
theorem predation_strike_effects (w : World) :
    (handlePredation w).world.seals.length = w.seals.length ∧
    (handlePredation w).world.penguins.length +
      (handlePredation w).killedPenguins.length = w.penguins.length ∧
    (handlePredation w).world.fish.length +
      (handlePredation w).killedFishBySeals.length +
      (handlePredation w).killedFishByPenguins.length = w.fish.length ∧
    (∀ v ∈ (handlePredation w).killedPenguins, v ∈ w.penguins ∧ v.isAlive = true ∧
      ∃ s ∈ w.seals, s.isAlive = true ∧ s.state = v.state ∧ s.distSq v < 100) ∧
    (∀ v ∈ (handlePredation w).killedFishBySeals, v ∈ w.fish ∧ v.isAlive = true ∧
      ∃ s : Animal, s.state = "sea" ∧ s.isAlive = true ∧ s.distSq v < 64) ∧
    (∀ v ∈ (handlePredation w).killedFishByPenguins, v ∈ w.fish ∧ v.isAlive = true ∧
      ∃ p : Animal, p.state = "sea" ∧ p.isAlive = true ∧ p.distSq v < 25) := by
  unfold handlePredation
  dsimp only
  refine ⟨?_, ?_, ?_, ?_, ?_, ?_⟩
  · rw [runPred_preds_length, runPred_preds_length]
  · rw [runPred_preds_length]
    exact runPred_count _ _ _ _ _
  · have h2 := runPred_count (fun s => decide (s.state = "sea") && s.isAlive)
      sealFishStrike 20 (runPred (fun s => s.isAlive) sealPenguinStrike 40
        w.seals w.penguins).preds w.fish
    have h3 := runPred_count (fun p => decide (p.state = "sea") && p.isAlive)
      penguinFishStrike 75 (runPred (fun s => s.isAlive) sealPenguinStrike 40
        w.seals w.penguins).prey (runPred (fun s => decide (s.state = "sea") && s.isAlive)
        sealFishStrike 20 (runPred (fun s => s.isAlive) sealPenguinStrike 40
          w.seals w.penguins).preds w.fish).prey
    omega
  · intro v hv
    obtain ⟨hm, s, hs, hch, hsc⟩ := runPred_killed_spec _ _ _ _ _ v hv
    simp only [sealPenguinStrike, Bool.and_eq_true, decide_eq_true_eq] at hsc
    exact ⟨hm, hsc.1.1, s, hs, hch, hsc.1.2, hsc.2⟩
  · intro v hv
    obtain ⟨hm, s, hs, hch, hsc⟩ := runPred_killed_spec _ _ _ _ _ v hv
    simp only [Bool.and_eq_true, decide_eq_true_eq] at hch
    simp only [sealFishStrike, Bool.and_eq_true, decide_eq_true_eq] at hsc
    exact ⟨hm, hsc.1, s, hch.1, hch.2, hsc.2⟩
  · intro v hv
    obtain ⟨hm, p, hp, hch, hsc⟩ := runPred_killed_spec _ _ _ _ _ v hv
    simp only [Bool.and_eq_true, decide_eq_true_eq] at hch
    simp only [penguinFishStrike, Bool.and_eq_true, decide_eq_true_eq] at hsc
    refine ⟨?_, hsc.1, p, hch.1, hch.2, hsc.2⟩
    exact (runPred_prey_sublist _ _ _ _ _).subset hm

/-- C3 witness: the seal count is preserved on a concrete world and the killed
fish of that world is certified by the per-kill specification. -/
theorem predation_strike_effects_witness :
    (handlePredation crossMediaWorld).world.seals.length =
      crossMediaWorld.seals.length ∧
    (cLandFish ∈ crossMediaWorld.fish ∧ cLandFish.isAlive = true ∧
      ∃ s : Animal, s.state = "sea" ∧ s.isAlive = true ∧ s.distSq cLandFish < 64) := by
  refine ⟨(predation_strike_effects crossMediaWorld).1, ?_⟩
  exact (predation_strike_effects crossMediaWorld).2.2.2.2.1 cLandFish (by decide)

/-- C4 amended: within one predator-prey pass a predator strikes at most once
(the inner loop breaks after the first match) — a lone predator never logs
more than one kill per pass — but the same seal takes part in both the
seal-penguin and the seal-fish pass, so a seal can total two kills per tick
(see the double-kill counterexample). -/
theorem predation_single_strike_per_pass :
    (∀ (ch : Animal → Bool) (sc : Animal → Animal → Bool) (g : ℚ)
      (s : Animal) (prey : List Animal),
      (runPred ch sc g [s] prey).killed.length ≤ 1) ∧
    (∀ w : World, w.seals.length = 1 →
      (handlePredation w).killedPenguins.length ≤ 1 ∧
      (handlePredation w).killedFishBySeals.length ≤ 1) ∧
    (∀ w : World, w.penguins.length ≤ 1 →
      (handlePredation w).killedFishByPenguins.length ≤ 1) := by
  refine ⟨?_, ?_, ?_⟩
  · intro ch sc g s prey
    exact runPred_killed_le_preds ch sc g [s] prey
  · intro w hw
    unfold handlePredation
    dsimp only
    constructor
    · exact (runPred_killed_le_preds _ _ _ _ _).trans (le_of_eq hw)
    · refine (runPred_killed_le_preds _ _ _ _ _).trans (le_of_eq ?_)
      rw [runPred_preds_length]
      exact hw
  · intro w hw
    unfold handlePredation
    dsimp only
    refine (runPred_killed_le_preds _ _ _ _ _).trans ?_
    exact ((runPred_prey_sublist _ _ _ _ _).length_le).trans hw

/-- C4 witness: the per-pass bounds instantiated on the double-kill world. -/
theorem predation_single_strike_per_pass_witness :
    (handlePredation doubleKillWorld).killedPenguins.length ≤ 1 ∧
    (handlePredation doubleKillWorld).killedFishBySeals.length ≤ 1 ∧
    (handlePredation doubleKillWorld).killedFishByPenguins.length ≤ 1 := by
  refine ⟨(predation_single_strike_per_pass.2.1 doubleKillWorld (by decide)).1,
    (predation_single_strike_per_pass.2.1 doubleKillWorld (by decide)).2,
    predation_single_strike_per_pass.2.2 doubleKillWorld (by decide)⟩

/-! ### Claim C6: liveness test and end-of-tick garbage collection -/

theorem mem_removeDead_isAlive (w : World) :
    ∀ a ∈ allAnimals (removeDeadAnimals w).1, a.isAlive = true := by
  intro a ha
  simp only [allAnimals, removeDeadAnimals, List.mem_append, List.mem_filter] at ha
  rcases ha with (ha | ha) | ha <;> exact ha.2

/-- C6: is_alive is true exactly for positive energy and age below max_age,
and after any completed tick every animal in every per-species collection of
get_state is alive — the dead were removed by the final
`_remove_dead_animals` phase. -/
theorem isAlive_iff_and_no_dead_in_state :
    (∀ a : Animal, a.isAlive = true ↔ 0 < a.energy ∧ a.age < a.maxAge) ∧
    (∀ (o : TickOracle) (s : EngineState),
      ∀ a ∈ allAnimals (getState (tickEngine o s)), a.isAlive = true) := by
  constructor
  · intro a
    simp [Animal.isAlive]
  · intro o s a ha
    exact mem_removeDead_isAlive _ a ha

/-- C6 witness: the liveness iff at a concrete fish and the post-tick
liveness of the one animal surviving a concrete tick. -/
theorem isAlive_iff_and_no_dead_in_state_witness :
    (oneFishSurvivor.isAlive = true ↔
      0 < oneFishSurvivor.energy ∧ oneFishSurvivor.age < oneFishSurvivor.maxAge) ∧
    oneFishSurvivor.isAlive = true := by
  refine ⟨isAlive_iff_and_no_dead_in_state.1 oneFishSurvivor, ?_⟩
  exact isAlive_iff_and_no_dead_in_state.2 trivOracle oneFishEngine
    oneFishSurvivor (by decide)

/-! ### Claim C9: animal ids -/

/-- C9 counterexample: starting from four breeding-eligible fish — a world
with no penguins and no seals, so the tick genuinely completes in the staged
source (`tickWorldChecked` reports no error and agrees with the completed-tick
model) — one tick in which both fish breeding events draw the randint suffix
12345 ends with two distinct offspring both named fish_12345: ids are random,
not unique. -/
theorem duplicate_fish_offspring_ids :
    tickWorldChecked c9Oracle c9World = (tickWorld c9Oracle c9World, none) ∧
    ¬ ((allAnimals (tickWorld c9Oracle c9World)).map (fun a => a.id)).Nodup := by
  decide

/-- C9 amended: the ids of the initially seeded world are pairwise distinct
(penguin_0..penguin_9, seal_0..seal_4, fish_0..fish_49), whatever the seeding
randomness; breeding and spawning, however, assign ids built from independent
random draws, so id distinctness is not preserved (see the counterexample). -/
theorem initial_world_ids_nodup (o : InitOracle) (width height : ℤ) :
    ((allAnimals (initWorld o width height)).map (fun a => a.id)).Nodup := by
  have h : (allAnimals (initWorld o width height)).map (fun a => a.id) =
      ((List.range 10).map (fun i => "penguin_" ++ toString i) ++
       ((List.range 5).map (fun i => "seal_" ++ toString i) ++
        (List.range 50).map (fun i => "fish_" ++ toString i))) := by
    simp only [allAnimals, initWorld, List.map_append, List.map_map]
    rfl
  rw [h]
  decide

/-- C9 auxiliary witness: the seeded-id distinctness at a concrete seeding. -/
theorem initial_world_ids_nodup_witness :
    ((allAnimals (initWorld trivInitOracle 800 600)).map (fun a => a.id)).Nodup :=
  initial_world_ids_nodup trivInitOracle 800 600

/-! ### Claim C1 counterexample: offspring can be born out of bounds -/

/-- C1 counterexample: two eligible fish swim at x = 799 in an 800-wide world
holding no penguins and no seals, so the tick genuinely completes in the
staged source (`tickWorldChecked` reports no error and agrees with the
completed-tick model); the fish breeding event draws a jitter of +5/2 (inside
uniform(-3, 3)) and the offspring enters the post-tick world at x = 1603/2,
outside the claimed bound x < width — the relocation of engine.py lines
1407-1422 fires only for offspring on land, not out of bounds.  The oracle
draws are all range-valid. -/
theorem fish_offspring_out_of_bounds :
    c1Oracle.Valid ∧
    tickWorldChecked c1Oracle c1World = (tickWorld c1Oracle c1World, none) ∧
    ¬ (∀ a ∈ allAnimals (tickWorld c1Oracle c1World), a.x < (c1World.width : ℚ)) := by
  decide

/-! ### Claim C7: the concrete penguin breeding scenario -/

theorem distSq_comm (a b : Animal) : a.distSq b = b.distSq a := by
  simp only [Animal.distSq, qDistSq_eq]
  ring

/-- C7: a world holding exactly two breeding-eligible penguins (zero cooldown,
energy above the threshold 80, on land) 5 units apart runs one breeding pass:
whichever order the shuffle pairs them in, exactly one offspring is appended
(two penguins become three) and both parents leave with their breeding
cooldown reset to their positive maximum, hence nonzero. -/
theorem two_eligible_penguins_breed_one_offspring
    (p1 p2 : Animal) (o : TickOracle)
    (h1c : p1.breedingCooldown = 0) (h1e : 80 < p1.energy)
    (h1s : p1.state = "land") (h1m : 0 < p1.maxBreedingCooldown)
    (h2c : p2.breedingCooldown = 0) (h2e : 80 < p2.energy)
    (h2s : p2.state = "land") (h2m : 0 < p2.maxBreedingCooldown)
    (hd : p1.distSq p2 = 25)
    (hperm : o.penguinPerm = [0, 1] ∨ o.penguinPerm = [1, 0]) :
    (handleBreeding o ⟨0, [p1, p2], [], [], 800, 600⟩).1.penguins.length = 3 ∧
    (∀ q ∈ (handleBreeding o ⟨0, [p1, p2], [], [], 800, 600⟩).1.penguins.take 2,
      q.breedingCooldown ≠ 0) := by
  have hd2 : p2.distSq p1 = 25 := by rw [distSq_comm]; exact hd
  have helig : eligibleIdx (fun p => canBreedPenguin p && decide (p.state = "land"))
      [p1, p2] = [0, 1] := by
    have hr : List.range 2 = [0, 1] := rfl
    simp [eligibleIdx, hr, canBreedPenguin, h1c, h1e, h1s, h2c, h2e, h2s]
  rcases hperm with h | h <;>
    simp only [handleBreeding, helig, h, List.length_cons, List.length_nil] <;>
    norm_num [pairUp, breedFold, hd, hd2, updBreedParent, eligibleIdx] <;>
    constructor <;>
    try omega
  all_goals
    intro hq
    simp only [Animal.consumeEnergy] at hq
    omega

/-- C7 witness: the scenario instantiated with concrete penguins 5 apart. -/
theorem two_eligible_penguins_breed_one_offspring_witness :
    (handleBreeding c7Oracle ⟨0, [c7P1, c7P2], [], [], 800, 600⟩).1.penguins.length = 3 ∧
    ((handleBreeding c7Oracle ⟨0, [c7P1, c7P2], [], [], 800, 600⟩).1.penguins.getD 0
      (mkFish "none" 0 0 0)).breedingCooldown ≠ 0 := by
  have h := two_eligible_penguins_breed_one_offspring c7P1 c7P2 c7Oracle
    (by decide) (by decide) (by decide) (by decide)
    (by decide) (by decide) (by decide) (by decide)
    (by decide) (Or.inl (by decide))
  refine ⟨h.1, ?_⟩
  exact h.2 _ (by decide)

/-! ### Claim C1: the invariant chain through one tick -/

theorem updateList_mem (f : ℕ → Animal → Animal) :
    ∀ (i : ℕ) (l : List Animal), ∀ b ∈ updateList f i l,
      ∃ k a, a ∈ l ∧ b = f k a := by
  intro i l
  induction l generalizing i with
  | nil => intro b hb; simp [updateList] at hb
  | cons a rest ih =>
    intro b hb
    simp only [updateList, List.mem_cons] at hb
    rcases hb with rfl | hb
    · exact ⟨i, a, List.mem_cons_self a rest, rfl⟩
    · obtain ⟨k, c, hc, hbc⟩ := ih (i + 1) b hb
      exact ⟨k, c, List.mem_cons_of_mem a hc, hbc⟩

theorem move_midInv (c : Animal) (dx dy : ℚ) (W H : ℤ) (hW : 1 ≤ W) (hH : 1 ≤ H)
    (h1 : c.energy ≤ c.maxEnergy) (h2 : 0 ≤ c.maxEnergy) (h3 : 0 ≤ c.age) :
    MidInv W H (c.move dx dy W H).1 := by
  refine ⟨?_, ?_, ?_, fun _ => ?_⟩
  · rw [move_energy, move_maxEnergy]; linarith
  · rw [move_maxEnergy]; exact h2
  · rw [move_age]; exact h3
  · exact ⟨(move_x_bounds c dx dy W H hW).1, (move_x_bounds c dx dy W H hW).2,
      (move_y_bounds c dx dy W H hH).1, (move_y_bounds c dx dy W H hH).2⟩

theorem engineMove_midInv (isLand : ℚ → ℚ → Bool) (ai : AIStep) (W H : ℤ)
    (hW : 1 ≤ W) (hH : 1 ≤ H) (b : Animal)
    (h1 : b.energy ≤ b.maxEnergy) (h2 : 0 ≤ b.maxEnergy) (h3 : 0 ≤ b.age) :
    MidInv W H (engineMoveAnimal isLand ai W H b) := by
  unfold engineMoveAnimal
  dsimp only
  exact move_midInv _ ai.dx ai.dy W H hW hH h1 h2 h3

theorem tickPenguinSeal_proj (a : Animal) :
    (tickPenguinSeal a).energy = max 0 (a.energy - 1/40) ∧
    (tickPenguinSeal a).maxEnergy = a.maxEnergy ∧
    (tickPenguinSeal a).age = a.age + 1 := by
  unfold tickPenguinSeal Animal.tickBase Animal.consumeEnergy
  dsimp only
  split_ifs <;> simp

theorem tickFish_proj (a : Animal) :
    (tickFish a).energy = max 0 (a.energy - 1/40) ∧
    (tickFish a).maxEnergy = a.maxEnergy ∧
    (tickFish a).age = a.age + 1 := by
  unfold tickFish Animal.tickBase Animal.consumeEnergy
  dsimp only
  simp

theorem updatePhase_midInv (o : TickOracle) (w : World)
    (hW : 1 ≤ w.width) (hH : 1 ≤ w.height) (hwf : WorldWF w) :
    ∀ a ∈ allAnimals (updatePhase o w), MidInv w.width w.height a := by
  intro a ha
  simp only [allAnimals, updatePhase, List.mem_append] at ha
  rcases ha with (ha | ha) | ha
  · obtain ⟨k, b, hb, rfl⟩ := updateList_mem _ _ _ a ha
    have h := hwf b (by simp [allAnimals, hb])
    obtain ⟨he, hm, hg⟩ := tickPenguinSeal_proj b
    apply engineMove_midInv _ _ _ _ hW hH
    · rw [he, hm]; exact max_le h.2.1 (by linarith [h.1])
    · rw [hm]; exact h.2.1
    · rw [hg]; linarith [h.2.2]
  · obtain ⟨k, b, hb, rfl⟩ := updateList_mem _ _ _ a ha
    have h := hwf b (by simp [allAnimals, hb])
    obtain ⟨he, hm, hg⟩ := tickPenguinSeal_proj b
    apply engineMove_midInv _ _ _ _ hW hH
    · rw [he, hm]; exact max_le h.2.1 (by linarith [h.1])
    · rw [hm]; exact h.2.1
    · rw [hg]; linarith [h.2.2]
  · obtain ⟨k, b, hb, rfl⟩ := updateList_mem _ _ _ a ha
    have h := hwf b (by simp [allAnimals, hb])
    obtain ⟨he, hm, hg⟩ := tickFish_proj b
    apply engineMove_midInv _ _ _ _ hW hH
    · rw [he, hm]; exact max_le h.2.1 (by linarith [h.1])
    · rw [hm]; exact h.2.1
    · rw [hg]; linarith [h.2.2]

theorem afterKill_midInv (g : ℚ) (W H : ℤ) (a : Animal) (h : MidInv W H a) :
    MidInv W H (afterKill g a) := by
  unfold afterKill Animal.gainEnergy
  dsimp only
  split_ifs <;> exact ⟨min_le_left _ _, h.2.1, h.2.2.1, h.2.2.2⟩

theorem handlePredation_midInv (W H : ℤ) (w : World)
    (h : ∀ a ∈ allAnimals w, MidInv W H a) :
    ∀ a ∈ allAnimals (handlePredation w).world, MidInv W H a := by
  have hpen : ∀ a ∈ w.penguins, MidInv W H a :=
    fun a ha => h a (by simp [allAnimals, ha])
  have hseal : ∀ a ∈ w.seals, MidInv W H a :=
    fun a ha => h a (by simp [allAnimals, ha])
  have hfish : ∀ a ∈ w.fish, MidInv W H a :=
    fun a ha => h a (by simp [allAnimals, ha])
  intro a ha
  unfold handlePredation at ha
  dsimp only at ha
  simp only [allAnimals, List.mem_append] at ha
  rcases ha with (ha | ha) | ha
  · obtain ⟨s, hs, hx⟩ := runPred_preds_shape _ _ _ _ _ a ha
    have hsmem : s ∈ w.penguins := (runPred_prey_sublist _ _ _ _ _).subset hs
    rcases hx with hx | hx
    · rw [hx]; exact hpen s hsmem
    · rw [hx]; exact afterKill_midInv _ _ _ _ (hpen s hsmem)
  · obtain ⟨s1, hs1, hx1⟩ := runPred_preds_shape _ _ _ _ _ a ha
    obtain ⟨s0, hs0, hx0⟩ := runPred_preds_shape _ _ _ _ _ s1 hs1
    have h0 := hseal s0 hs0
    have h1 : MidInv W H s1 := by
      rcases hx0 with hx0 | hx0
      · rw [hx0]; exact h0
      · rw [hx0]; exact afterKill_midInv _ _ _ _ h0
    rcases hx1 with hx1 | hx1
    · rw [hx1]; exact h1
    · rw [hx1]; exact afterKill_midInv _ _ _ _ h1
  · have hmem : a ∈ w.fish :=
      (runPred_prey_sublist _ _ _ _ _).subset
        ((runPred_prey_sublist _ _ _ _ _).subset ha)
    exact hfish a hmem

theorem updBreedParent_midInv (cost : ℚ) (hcost : 0 ≤ cost) (W H : ℤ)
    (a : Animal) (h : MidInv W H a) : MidInv W H (updBreedParent cost a) := by
  unfold updBreedParent Animal.consumeEnergy
  simp only [qSub_eq]
  exact ⟨max_le h.2.1 (by linarith [h.1]), h.2.1, h.2.2.1, h.2.2.2⟩

theorem updFishParent_midInv (W H : ℤ) (a : Animal) (h : MidInv W H a) :
    MidInv W H (updFishParent a) := by
  unfold updFishParent Animal.consumeEnergy
  simp only [qSub_eq]
  exact ⟨max_le h.2.1 (by linarith [h.1]), h.2.1, h.2.2.1, h.2.2.2⟩

theorem babyPenguin_midInv (W H : ℤ) (p : Animal) (d : BreedDraw) :
    MidInv W H (babyPenguin p d) := by
  unfold MidInv babyPenguin mkPenguin
  dsimp only
  refine ⟨by norm_num, by norm_num, le_refl 0, fun hcon => absurd hcon (by norm_num)⟩

theorem babySeal_midInv (W H : ℤ) (p : Animal) (d : BreedDraw) :
    MidInv W H (babySeal p d) := by
  unfold MidInv babySeal mkSeal
  dsimp only
  refine ⟨by norm_num, by norm_num, le_refl 0, fun hcon => absurd hcon (by norm_num)⟩

theorem babyFish_midInv (isLand : ℚ → ℚ → Bool) (W H : ℤ) (p : Animal) (d : BreedDraw) :
    MidInv W H (babyFish isLand p d) := by
  unfold MidInv babyFish mkFish
  dsimp only
  split_ifs <;>
    exact ⟨by norm_num, by norm_num, le_refl 0, fun hcon => absurd hcon (by norm_num)⟩

theorem breedFold_midInv (W H : ℤ) (upd : Animal → Animal)
    (mkB : Animal → BreedDraw → Animal) (t : ℚ) (draws : ℕ → BreedDraw)
    (hupd : ∀ a, MidInv W H a → MidInv W H (upd a))
    (hmb : ∀ p d, MidInv W H (mkB p d)) :
    ∀ (pairs : List (ℕ × ℕ)) (l : List Animal) (k : ℕ),
      (∀ a ∈ l, MidInv W H a) →
      (∀ a ∈ (breedFold upd mkB t draws pairs l k).1, MidInv W H a) ∧
      (∀ a ∈ (breedFold upd mkB t draws pairs l k).2, MidInv W H a) := by
  intro pairs
  induction pairs with
  | nil =>
    intro l k hl
    exact ⟨hl, by intro a ha; simp [breedFold] at ha⟩
  | cons ij rest ih =>
    intro l k hl
    obtain ⟨i, j⟩ := ij
    cases hgi : l.get? i with
    | none =>
      have hred : breedFold upd mkB t draws ((i, j) :: rest) l k =
          breedFold upd mkB t draws rest l k := by
        conv_lhs => rw [breedFold]
        rw [hgi]
      rw [hred]
      exact ih l k hl
    | some p1 =>
      cases hgj : l.get? j with
      | none =>
        have hred : breedFold upd mkB t draws ((i, j) :: rest) l k =
            breedFold upd mkB t draws rest l k := by
          conv_lhs => rw [breedFold]
          rw [hgi, hgj]
        rw [hred]
        exact ih l k hl
      | some p2 =>
        by_cases hdist : p1.distSq p2 < t
        · have hset : ∀ a ∈ (l.set i (upd p1)).set j (upd p2), MidInv W H a := by
            intro a ha
            rcases List.mem_or_eq_of_mem_set ha with ha | rfl
            · rcases List.mem_or_eq_of_mem_set ha with ha | rfl
              · exact hl a ha
              · exact hupd _ (hl p1 (List.get?_mem hgi))
            · exact hupd _ (hl p2 (List.get?_mem hgj))
          have hrec := ih ((l.set i (upd p1)).set j (upd p2)) (k + 1) hset
          have hred : breedFold upd mkB t draws ((i, j) :: rest) l k =
              ((breedFold upd mkB t draws rest ((l.set i (upd p1)).set j (upd p2)) (k + 1)).1,
               mkB p1 (draws k) ::
                 (breedFold upd mkB t draws rest ((l.set i (upd p1)).set j (upd p2)) (k + 1)).2) := by
            conv_lhs => rw [breedFold]
            rw [hgi, hgj]
            simp [hdist]
          rw [hred]
          refine ⟨hrec.1, ?_⟩
          intro a ha
          rcases List.mem_cons.mp ha with rfl | ha
          · exact hmb _ _
          · exact hrec.2 a ha
        · have hred : breedFold upd mkB t draws ((i, j) :: rest) l k =
              breedFold upd mkB t draws rest l k := by
            conv_lhs => rw [breedFold]
            rw [hgi, hgj]
            simp [hdist]
          rw [hred]
          exact ih l k hl

theorem handleBreeding_midInv (o : TickOracle) (W H : ℤ) (w : World)
    (h : ∀ a ∈ allAnimals w, MidInv W H a) :
    ∀ a ∈ allAnimals (handleBreeding o w).1, MidInv W H a := by
  have hpen : ∀ a ∈ w.penguins, MidInv W H a :=
    fun a ha => h a (by simp [allAnimals, ha])
  have hseal : ∀ a ∈ w.seals, MidInv W H a :=
    fun a ha => h a (by simp [allAnimals, ha])
  have hfish : ∀ a ∈ w.fish, MidInv W H a :=
    fun a ha => h a (by simp [allAnimals, ha])
  have hp := breedFold_midInv W H (updBreedParent 30) babyPenguin 400 o.penguinDraws
    (fun a ha => updBreedParent_midInv 30 (by norm_num) W H a ha)
    (babyPenguin_midInv W H) (pairUp o.penguinPerm) w.penguins 0 hpen
  have hs := breedFold_midInv W H (updBreedParent 50) babySeal 625 o.sealDraws
    (fun a ha => updBreedParent_midInv 50 (by norm_num) W H a ha)
    (babySeal_midInv W H) (pairUp o.sealPerm) w.seals 0 hseal
  have hf := breedFold_midInv W H updFishParent (babyFish o.isLand) 100 o.fishDraws
    (fun a ha => updFishParent_midInv W H a ha)
    (babyFish_midInv o.isLand W H)
    ((pairUp o.fishPerm).take (numFishPairs
      (eligibleIdx (fun f => f.isAlive && decide (30 < f.energy)) w.fish).length))
    w.fish 0 hfish
  intro a ha
  unfold handleBreeding at ha
  dsimp only at ha
  simp only [allAnimals, List.mem_append] at ha
  rcases ha with (ha | ha) | ha
  · split_ifs at ha
    · rcases ha with ha | ha
      · exact hp.1 a ha
      · exact hp.2 a ha
    · rcases ha with ha | ha
      · exact hpen a ha
      · simp at ha
  · split_ifs at ha
    · rcases ha with ha | ha
      · exact hs.1 a ha
      · exact hs.2 a ha
    · rcases ha with ha | ha
      · exact hseal a ha
      · simp at ha
  · split_ifs at ha
    · rcases ha with ha | ha
      · exact hf.1 a ha
      · exact hf.2 a ha
    · rcases ha with ha | ha
      · exact hfish a ha
      · simp at ha

theorem handleSpawning_midInv (o : TickOracle) (W H : ℤ) (w : World)
    (hval : o.Valid) (h : ∀ a ∈ allAnimals w, MidInv W H a) :
    ∀ a ∈ allAnimals (handleSpawning o w).1, MidInv W H a := by
  intro a ha
  unfold handleSpawning at ha
  split_ifs at ha
  · simp only [allAnimals, List.mem_append] at ha
    rcases ha with (ha | ha) | ha
    · exact h a (by simp [allAnimals, ha])
    · exact h a (by simp [allAnimals, ha])
    · rcases ha with ha | ha
      · exact h a (by simp [allAnimals, ha])
      · simp only [List.mem_singleton] at ha
        rw [ha]
        unfold MidInv mkFish
        dsimp only
        exact ⟨by linarith [hval.2], by norm_num, le_refl 0,
          fun hcon => absurd hcon (by norm_num)⟩
  · exact h a ha
  · exact h a ha

theorem mem_removeDead (w : World) :
    ∀ a ∈ allAnimals (removeDeadAnimals w).1,
      a ∈ allAnimals w ∧ a.isAlive = true := by
  intro a ha
  simp only [allAnimals, removeDeadAnimals, List.mem_append, List.mem_filter] at ha
  rcases ha with (ha | ha) | ha
  · exact ⟨by simp [allAnimals, ha.1], ha.2⟩
  · exact ⟨by simp [allAnimals, ha.1], ha.2⟩
  · exact ⟨by simp [allAnimals, ha.1], ha.2⟩

/-- C1 amended: after any completed tick, whatever the behaviour decisions and
(range-valid) RNG draws, every animal of a well-formed world has energy in
[0, max_energy] and nonnegative age; the position bounds 0 <= x < width,
0 <= y < height hold for every animal that was already present when the tick
started (age at least 1) — newborn offspring (age 0) may start outside the
map until their first move (see the out-of-bounds counterexample). -/
theorem tick_preserves_core_invariants (o : TickOracle) (s : EngineState)
    (hval : o.Valid) (hwf : WorldWF s.world)
    (hW : 1 ≤ s.world.width) (hH : 1 ≤ s.world.height) :
    ∀ a ∈ allAnimals (getState (tickEngine o s)),
      CoreInvariant s.world.width s.world.height a := by
  intro a ha
  have hstate : getState (tickEngine o s) =
      (removeDeadAnimals (handleSpawning o (handleBreeding o
        (handlePredation (updatePhase o
          { s.world with tick := s.world.tick + 1 })).world).1).1).1 := rfl
  rw [hstate] at ha
  obtain ⟨hmem, halive⟩ := mem_removeDead _ a ha
  have h1 : WorldWF { s.world with tick := s.world.tick + 1 } := hwf
  have h2 := updatePhase_midInv o { s.world with tick := s.world.tick + 1 } hW hH h1
  have h3 := handlePredation_midInv s.world.width s.world.height _ h2
  have h4 := handleBreeding_midInv o s.world.width s.world.height _ h3
  have h5 := handleSpawning_midInv o s.world.width s.world.height _ hval h4
  have hmid := h5 a hmem
  have hE : 0 < a.energy := by
    simp only [Animal.isAlive, Bool.and_eq_true, decide_eq_true_eq] at halive
    exact halive.1
  exact ⟨le_of_lt hE, hmid.1, hmid.2.2.1, hmid.2.2.2⟩

/-- C1 witness: the invariant for the animal surviving a concrete tick. -/
theorem tick_preserves_core_invariants_witness :
    CoreInvariant 800 600 oneFishSurvivor := by
  have h := tick_preserves_core_invariants trivOracle oneFishEngine
    (by decide) (by decide) (by decide) (by decide)
  exact h oneFishSurvivor (by decide)
